import Mathlib

/-!
Shallow embedding of the RadialDiagram repository diagram data model, its
command-based undo/redo engine and its derived-geometry computations, with
theorems checking the natural-language specification against the code.

Conventions of the embedding:
* Python object references between entities (`blob.start_outcome`,
  `outcome.swimlane_id`, ...) are represented by entity ids; `None` becomes
  `Option.none`.
* The Python global id counter (`utils/id_generator.py`) is threaded explicitly
  as a `Nat` state.
* Python dicts keyed by id are association lists in insertion order; dict
  semantics (at most one entry per key) appears as `Nodup` hypotheses.
* Real-valued coordinates are rationals; the transcendental functions
  `math.cos`, `math.sin` are abstract parameters `cosf sinf : ℚ → ℚ`, and
  `math.radians` is `deg * twoPi / 360` for a positive parameter `twoPi`
  standing for `2 * math.pi` (only linearity and order of the conversion
  matter to the claims checked here).
-/

namespace RadialDiagram

/-- A 2-D point, as used for `QPointF` values in the source. -/
structure Point where
  x : ℚ
  y : ℚ
deriving DecidableEq, Repr

/-- An RGBA color, as used for `QColor` values in the source. -/
structure Color where
  r : ℕ
  g : ℕ
  b : ℕ
  a : ℕ
deriving DecidableEq, Repr

/-- Source `styles/colors.py` `COLORS segment1` = `#00BCD4` (opaque). -/
def segment1 : Color := ⟨0x00, 0xBC, 0xD4, 255⟩

/-- Source `styles/colors.py` `COLORS segment2` = `#2196F3` (opaque). -/
def segment2 : Color := ⟨0x21, 0x96, 0xF3, 255⟩

/-- Source `styles/colors.py` `COLORS segment3` = `#E91E63` (opaque). -/
def segment3 : Color := ⟨0xE9, 0x1E, 0x63, 255⟩

/-- Source `styles/colors.py` `COLORS segment4` = `#F44336` (opaque). -/
def segment4 : Color := ⟨0xF4, 0x43, 0x36, 255⟩

/-- Source `QColor.setAlpha`. -/
def Color.setAlpha (c : Color) (alpha : ℕ) : Color :=
  { c with a := alpha }

/-- Source `COLORS segment-n` lookup for `n ∈ {1,2,3,4}` as used by the blob
color cycle. -/
def segmentColor (n : ℕ) : Color :=
  if n = 1 then segment1
  else if n = 2 then segment2
  else if n = 3 then segment3
  else segment4

/-!
## Id generation (`utils/id_generator.py`)

`generate_unique_id` increments a module-global counter `_NEXT_ID` and
returns it.  Entity constructors all run `self.id = id or generate_unique_id()`:
the supplied id is used only when it is truthy (not `None` and not `0`).
-/

/-- Source `generate_unique_id()` over an explicit counter state: returns the new
counter value as the fresh id. -/
def generate_unique_id (c : ℕ) : ℕ × ℕ :=
  (c + 1, c + 1)

/-- The Python idiom `id or generate_unique_id()` in entity constructors:
an explicitly supplied id is used only when truthy (≠ 0); `None` or `0`
falls through to the generator.  Returns (assigned id, new counter). -/
def pyIdOr (idOpt : Option ℕ) (c : ℕ) : ℕ × ℕ :=
  match idOpt with
  | some i => if i = 0 then generate_unique_id c else (i, c)
  | none => generate_unique_id c

/-!
## Entity model (`src/models/`)
-/

/-- Source `models/swimlane.py` `Swimlane`: id, angle (degrees), label, color.
(The transient view pointer `item` is not model state.) -/
structure Swimlane where
  id : ℕ
  angle : ℚ
  label : String
  color : Color
deriving DecidableEq, Repr

/-- Source `models/outcome.py` `Outcome`: id, owning swimlane id, distance from
center, label, and the `associated_blobs` back-reference list (blob ids). -/
structure Outcome where
  id : ℕ
  swimlane_id : ℕ
  distance : ℚ
  label : String
  associated_blobs : List ℕ
deriving DecidableEq, Repr

/-- Source `models/scope_blob.py` `ScopeBlob`: id, boundary points, color, label and
the four optional endpoint references (entity ids; all `None` at
construction). -/
structure ScopeBlob where
  id : ℕ
  points : List Point
  color : Color
  label : String
  start_swimlane : Option ℕ
  end_swimlane : Option ℕ
  start_outcome : Option ℕ
  end_outcome : Option ℕ
deriving DecidableEq, Repr

/-- Source `models/diagram.py` `Diagram`: center, the id-keyed swimlane and outcome
dicts (in insertion order) and the ordered blob list. -/
structure Diagram where
  center : Point
  swimlanes : List Swimlane
  outcomes : List Outcome
  blobs : List ScopeBlob
deriving DecidableEq, Repr

/-- Fresh empty diagram (`Diagram.__init__`), center defaulted to (0,0). -/
def Diagram.empty : Diagram :=
  ⟨⟨0, 0⟩, [], [], []⟩

/-- Python dict assignment `d[key] = value` on an id-keyed dict: replace the
entry with that id in place, else append. -/
def dictInsertSwimlane (xs : List Swimlane) (s : Swimlane) : List Swimlane :=
  if xs.any (fun x => x.id == s.id) then
    xs.map (fun x => if x.id == s.id then s else x)
  else xs ++ [s]

/-- Python dict assignment for the outcome dict. -/
def dictInsertOutcome (xs : List Outcome) (o : Outcome) : List Outcome :=
  if xs.any (fun x => x.id == o.id) then
    xs.map (fun x => if x.id == o.id then o else x)
  else xs ++ [o]

/-- Source `Diagram.add_swimlane` (angle branch): constructs
`Swimlane(label, angle, color)` with a generated id and inserts it. -/
def Diagram.add_swimlane (d : Diagram) (angle : ℚ) (label : String)
    (color : Color) (c : ℕ) : Diagram × ℕ :=
  let idc := generate_unique_id c
  let s : Swimlane := ⟨idc.1, angle, label, color⟩
  ({ d with swimlanes := dictInsertSwimlane d.swimlanes s }, idc.2)

/-- Source `Diagram.add_outcome` (swimlane-id branch): constructs
`Outcome(swimlane_id, distance, label)` with a generated id and inserts it.
Note: the source performs no validation of `swimlane_id`. -/
def Diagram.add_outcome (d : Diagram) (swimlane_id : ℕ) (distance : ℚ)
    (label : String) (c : ℕ) : Diagram × ℕ :=
  let idc := generate_unique_id c
  let o : Outcome := ⟨idc.1, swimlane_id, distance, label, []⟩
  ({ d with outcomes := dictInsertOutcome d.outcomes o }, idc.2)

/-- Source `Diagram.add_blob`: constructs `ScopeBlob(points, color, label=label)`
(all four endpoint references `None`) and appends it to `blobs`. -/
def Diagram.add_blob (d : Diagram) (points : List Point) (color : Color)
    (label : String) (c : ℕ) : Diagram × ℕ :=
  let idc := generate_unique_id c
  let b : ScopeBlob := ⟨idc.1, points, color, label, none, none, none, none⟩
  ({ d with blobs := d.blobs ++ [b] }, idc.2)

/-- Source `outcome.associated_blobs.remove(blob)` guarded by membership, applied to
the outcome referenced by `ref` (a `start_outcome`/`end_outcome` field):
erase the blob id from that outcome list. -/
def deregisterFrom (outs : List Outcome) (ref : Option ℕ) (bid : ℕ) :
    List Outcome :=
  match ref with
  | none => outs
  | some oid =>
      outs.map (fun o =>
        if o.id == oid then
          { o with associated_blobs := o.associated_blobs.erase bid }
        else o)

/-- Source `Diagram.remove_blob`: if the blob is present, deregister it from its
start and end outcome `associated_blobs` lists and remove it from `blobs`. -/
def Diagram.remove_blob (d : Diagram) (b : ScopeBlob) : Diagram :=
  if d.blobs.any (fun x => x.id == b.id) then
    { d with
      outcomes :=
        deregisterFrom (deregisterFrom d.outcomes b.start_outcome b.id)
          b.end_outcome b.id,
      blobs := d.blobs.eraseP (fun x => x.id == b.id) }
  else d

/-- Does the blob have the outcome with id `oid` as its start or end
endpoint (`blob.start_outcome == outcome or blob.end_outcome == outcome`)? -/
def blobTouches (oid : ℕ) (b : ScopeBlob) : Bool :=
  b.start_outcome == some oid || b.end_outcome == some oid

/-- Source `Diagram.remove_outcome`: if present, remove every blob having this
outcome as an endpoint (via `remove_blob`), then delete the outcome. -/
def Diagram.remove_outcome (d : Diagram) (oid : ℕ) : Diagram :=
  if d.outcomes.any (fun o => o.id == oid) then
    let blobs_to_remove := d.blobs.filter (blobTouches oid)
    let d' := blobs_to_remove.foldl Diagram.remove_blob d
    { d' with outcomes := d'.outcomes.eraseP (fun o => o.id == oid) }
  else d

/-- Source `Diagram.remove_swimlane`: if present, remove every outcome on this
swimlane (cascading into blobs via `remove_outcome`), then delete the
swimlane. -/
def Diagram.remove_swimlane (d : Diagram) (sid : ℕ) : Diagram :=
  if d.swimlanes.any (fun s => s.id == sid) then
    let outcomes_to_remove :=
      (d.outcomes.filter (fun o => o.swimlane_id == sid)).map (fun o => o.id)
    let d' := outcomes_to_remove.foldl Diagram.remove_outcome d
    { d' with swimlanes := d'.swimlanes.eraseP (fun s => s.id == sid) }
  else d

/-!
## Geometry (`utils/geometry.py`, `radial_diagram.py`)

`math.cos`/`math.sin` are abstract parameters; `math.radians` is linear.
-/

/-- Source `math.radians(deg)` = `deg * (2*pi) / 360`, with `twoPi` standing for
`2 * math.pi`. -/
def radians (twoPi deg : ℚ) : ℚ :=
  deg * twoPi / 360

/-- Source `utils/geometry.py` `calculate_point_on_line(start_point, angle_rad,
distance)`: `x = start.x + distance*cos(angle_rad)`,
`y = start.y + distance*sin(angle_rad)`. -/
def calculate_point_on_line (cosf sinf : ℚ → ℚ) (start_point : Point)
    (angle_rad distance : ℚ) : Point :=
  ⟨start_point.x + distance * cosf angle_rad,
   start_point.y + distance * sinf angle_rad⟩

/-- Source `radial_diagram.py` `Outcome.calculate_position`: converts the owning
swimlane angle to radians and offsets the diagram center by the outcome
distance along it. -/
def calculate_position (cosf sinf : ℚ → ℚ) (twoPi : ℚ) (center : Point)
    (swimlaneAngle distance : ℚ) : Point :=
  let angle_rad := radians twoPi swimlaneAngle
  ⟨center.x + distance * cosf angle_rad,
   center.y + distance * sinf angle_rad⟩

/-!
## The `radial_diagram.py` model world

`radial_diagram.py` contains its own (divergent) `Diagram`/`Swimlane`/
`Outcome`/`ScopeBlob` definitions: swimlanes are keyed by *name*, own their
outcomes, carry a `length` (default 250), and `add_outcome` validates the
swimlane name.
-/

/-- Source `radial_diagram.py` `Outcome`: id, label, distance, derived `position`,
and the `associated_blobs` back-references (blob ids).  The back-reference to
the owning swimlane is represented by containment in
`RDSwimlane.outcomes`. -/
structure RDOutcome where
  id : ℕ
  label : String
  distance : ℚ
  position : Point
  associated_blobs : List ℕ
deriving DecidableEq, Repr

/-- Source `radial_diagram.py` `Swimlane`: id, name, angle, `length = 250` at
construction, color, and the owned ordered outcome list. -/
structure RDSwimlane where
  id : ℕ
  name : String
  angle : ℚ
  length : ℚ
  color : Color
  outcomes : List RDOutcome
deriving DecidableEq, Repr

/-- Source `radial_diagram.py` `ScopeBlob`: id, points, color, label, the `outcomes`
membership list (outcome ids) and the four optional endpoint references. -/
structure RDBlob where
  id : ℕ
  points : List Point
  color : Color
  label : String
  outcome_ids : List ℕ
  start_swimlane : Option ℕ
  end_swimlane : Option ℕ
  start_outcome : Option ℕ
  end_outcome : Option ℕ
deriving DecidableEq, Repr

/-- Source `radial_diagram.py` `Diagram`: center, name-keyed swimlane dict (in
insertion order) and the blob list. -/
structure RDDiagram where
  center : Point
  swimlanes : List (String × RDSwimlane)
  blobs : List RDBlob
deriving DecidableEq, Repr

/-- Typed stand-ins for the `ValueError` messages raised by the
`radial_diagram.py` `Diagram.add_swimlane` / `add_outcome` validations. -/
inductive RDError where
  | swimlaneNameExists (name : String)
  | swimlaneNotFound (name : String)
deriving DecidableEq, Repr

/-- Source `radial_diagram.py` `Diagram.add_swimlane`: raises `ValueError` when the
name is already a key, else constructs a `Swimlane` (generated id, length
250, no outcomes) and inserts it under its name. -/
def RDDiagram.add_swimlane (d : RDDiagram) (name : String) (angle : ℚ)
    (color : Color) (c : ℕ) : Except RDError (RDDiagram × ℕ) :=
  if d.swimlanes.any (fun p => p.1 == name) then
    .error (RDError.swimlaneNameExists name)
  else
    let idc := generate_unique_id c
    .ok ({ d with
            swimlanes :=
              d.swimlanes ++ [(name, ⟨idc.1, name, angle, 250, color, []⟩)] },
         idc.2)

/-- Source `radial_diagram.py` `Diagram.add_outcome`: looks the swimlane up by name,
raising `ValueError` when absent; otherwise constructs an `Outcome`
(generated id), appends it to the swimlane outcome list and computes its
derived position (`Swimlane.add_outcome` calls
`outcome.calculate_position()`). -/
def RDDiagram.add_outcome (cosf sinf : ℚ → ℚ) (twoPi : ℚ) (d : RDDiagram)
    (swimlane_name : String) (distance : ℚ) (label : String) (c : ℕ) :
    Except RDError (RDDiagram × ℕ) :=
  match d.swimlanes.find? (fun p => p.1 == swimlane_name) with
  | none => .error (RDError.swimlaneNotFound swimlane_name)
  | some p =>
      let idc := generate_unique_id c
      let pos := calculate_position cosf sinf twoPi d.center p.2.angle distance
      let o : RDOutcome := ⟨idc.1, label, distance, pos, []⟩
      .ok ({ d with
              swimlanes := d.swimlanes.map (fun q =>
                if q.1 == swimlane_name then
                  (q.1, { q.2 with outcomes := q.2.outcomes ++ [o] })
                else q) },
           idc.2)

/-!
## Blob-path sweep (`radial_diagram.py` `DiagramScene.calculate_blob_points`)

The function converts the two swimlane angles to radians, adds `2*pi` to the
end angle once when it is numerically below the start angle, and
interpolates the outer arc linearly from the start angle to the (possibly
adjusted) end angle.
-/

/-- The end-angle adjustment in `calculate_blob_points`:
`if end_angle < start_angle: end_angle += 2 * math.pi`. -/
def adjustEndAngle (start_angle end_angle twoPi : ℚ) : ℚ :=
  if end_angle < start_angle then end_angle + twoPi else end_angle

/-- The total angular sweep (adjusted end angle minus start angle) of the
outer arc interpolated by `calculate_blob_points`, as a function of the two
swimlane angles in degrees. -/
def blobSweep (twoPi startAngleDeg endAngleDeg : ℚ) : ℚ :=
  let start_angle := radians twoPi startAngleDeg
  let end_angle := radians twoPi endAngleDeg
  adjustEndAngle start_angle end_angle twoPi - start_angle

/-- Source `DiagramScene.calculate_blob_points` proper: center point, inner-arc
entry point, the 31-point outer arc swept from the start angle to the
adjusted end angle at the larger outcome distance (default 200), inner-arc
exit point, and back to center. -/
def calculate_blob_points (cosf sinf : ℚ → ℚ) (twoPi : ℚ) (center : Point)
    (startAngleDeg endAngleDeg : ℚ) (startDist endDist : Option ℚ) :
    List Point :=
  let start_angle := radians twoPi startAngleDeg
  let end_angle := adjustEndAngle start_angle (radians twoPi endAngleDeg) twoPi
  let inner_radius : ℚ := 30
  let outer_radius := max (startDist.getD 200) (endDist.getD 200)
  let num_points : ℕ := 30
  let arc := (List.range (num_points + 1)).map (fun i =>
    let t : ℚ := (i : ℚ) / (num_points : ℚ)
    let angle := start_angle * (1 - t) + end_angle * t
    Point.mk (center.x + outer_radius * cosf angle)
      (center.y + outer_radius * sinf angle))
  [center,
   ⟨center.x + inner_radius * cosf start_angle,
    center.y + inner_radius * sinf start_angle⟩]
  ++ arc
  ++ [⟨center.x + inner_radius * cosf end_angle,
       center.y + inner_radius * sinf end_angle⟩, center]

/-!
## Command layer (`src/commands/` with the `src/views/` item state)

Scene state: the model diagram, the id counter, each outcome item
`associated_blobs` list (view state, keyed by outcome id), graphics item
positions (view state, for `MoveCommand`), and the scene four transient
endpoint selections used by `AddBlobCommand.redo`.
-/

structure SceneState where
  diagram : Diagram
  counter : ℕ
  outcomeItems : List (ℕ × List ℕ)
  itemPositions : List (ℕ × Point)
  start_swimlane : Option ℕ
  end_swimlane : Option ℕ
  start_outcome : Option ℕ
  end_outcome : Option ℕ
deriving DecidableEq, Repr

/-- Source `outcome.item.associated_blobs.append(blob_item)` on the item of the
outcome referenced by `ref` (no-op when the reference is `None`). -/
def itemAppend (items : List (ℕ × List ℕ)) (ref : Option ℕ) (bid : ℕ) :
    List (ℕ × List ℕ) :=
  match ref with
  | none => items
  | some oid => items.map (fun p => if p.1 == oid then (p.1, p.2 ++ [bid]) else p)

/-- membership-guarded `outcome.item.associated_blobs.remove(blob_item)` on
the item of the outcome referenced by `ref`. -/
def itemRemove (items : List (ℕ × List ℕ)) (ref : Option ℕ) (bid : ℕ) :
    List (ℕ × List ℕ) :=
  match ref with
  | none => items
  | some oid => items.map (fun p => if p.1 == oid then (p.1, p.2.erase bid) else p)

/-- Mutation of the object returned by `add_blob` (the last list element). -/
def modifyLast (f : ScopeBlob → ScopeBlob) : List ScopeBlob → List ScopeBlob
  | [] => []
  | [b] => [f b]
  | b :: bs => b :: modifyLast f bs

/-- Source `commands/add_blob_command.py` `AddBlobCommand`: constructed with the
candidate point list and label; `self.blob` is filled in by `redo`. -/
structure AddBlobCmd where
  points : List Point
  label : String
deriving DecidableEq, Repr

/-- Source `AddBlobCommand.redo`: picks the palette color from
`len(diagram.blobs) % 4 + 1` with alpha 80, calls `diagram.add_blob`, stores
the scene current endpoint selections on the new blob, and appends the new
blob item to the start/end outcome item `associated_blobs`.  Returns the
new state together with the created blob (the command `self.blob`). -/
def AddBlobCmd.redo (cmd : AddBlobCmd) (s : SceneState) :
    SceneState × ScopeBlob :=
  let segment_num := s.diagram.blobs.length % 4 + 1
  let color := (segmentColor segment_num).setAlpha 80
  let dc := s.diagram.add_blob cmd.points color cmd.label s.counter
  let setRefs : ScopeBlob → ScopeBlob := fun b =>
    { b with start_swimlane := s.start_swimlane, end_swimlane := s.end_swimlane,
             start_outcome := s.start_outcome, end_outcome := s.end_outcome }
  let blobs := modifyLast setRefs dc.1.blobs
  let bid := dc.2
  let items := itemAppend (itemAppend s.outcomeItems s.start_outcome bid)
    s.end_outcome bid
  let blob : ScopeBlob :=
    setRefs ⟨bid, cmd.points, color, cmd.label, none, none, none, none⟩
  ({ s with diagram := { dc.1 with blobs := blobs }, counter := dc.2,
            outcomeItems := items },
   blob)

/-- Source `AddBlobCommand.undo`: removes the blob item from the endpoint outcome
item `associated_blobs` (membership-guarded) and calls
`diagram.remove_blob(self.blob)`. -/
def AddBlobCmd.undo (s : SceneState) (blob : ScopeBlob) : SceneState :=
  let items := itemRemove (itemRemove s.outcomeItems blob.start_outcome blob.id)
    blob.end_outcome blob.id
  { s with outcomeItems := items, diagram := s.diagram.remove_blob blob }

/-- Source `commands/delete_blob_command.py` `DeleteBlobCommand`: captures at
construction the blob and its two endpoint outcome items (from
`blob.start_outcome.item` / `blob.end_outcome.item`). -/
structure DeleteBlobCmd where
  blob : ScopeBlob
  start_outcome_item : Option ℕ
  end_outcome_item : Option ℕ
deriving DecidableEq, Repr

/-- Source `DeleteBlobCommand.__init__` state capture. -/
def DeleteBlobCmd.construct (b : ScopeBlob) : DeleteBlobCmd :=
  ⟨b, b.start_outcome, b.end_outcome⟩

/-- Source `DeleteBlobCommand.redo`: removes the blob item from the captured
outcome item `associated_blobs` (membership-guarded) and calls
`diagram.remove_blob(self.blob)`. -/
def DeleteBlobCmd.redo (cmd : DeleteBlobCmd) (s : SceneState) : SceneState :=
  let items := itemRemove
    (itemRemove s.outcomeItems cmd.start_outcome_item cmd.blob.id)
    cmd.end_outcome_item cmd.blob.id
  { s with outcomeItems := items, diagram := s.diagram.remove_blob cmd.blob }

/-- Source `DeleteBlobCommand.undo`: appends the blob back to `diagram.blobs`
directly (at the end, not at its original index) and re-appends the blob
item to the captured outcome item lists; the model-level
`associated_blobs` entries removed by the `remove_blob` cascade are not
restored. -/
def DeleteBlobCmd.undo (cmd : DeleteBlobCmd) (s : SceneState) : SceneState :=
  let d := { s.diagram with blobs := s.diagram.blobs ++ [cmd.blob] }
  let items := itemAppend
    (itemAppend s.outcomeItems cmd.start_outcome_item cmd.blob.id)
    cmd.end_outcome_item cmd.blob.id
  { s with diagram := d, outcomeItems := items }

/-- Python float modulo with a positive modulus: `x % m = x - m*floor(x/m)`,
landing in `[0, m)`; this is how the `math.degrees(...) % 360` readbacks
and the angular differences in the view items behave. -/
def pymod (x m : ℚ) : ℚ := x - m * (⌊x / m⌋ : ℚ)

/-- A graphics item as targeted by `MoveCommand`/`ChangeColorCommand`: the
graphics-item identity (`key`, indexing the scene position store), the
wrapped model entity id, and the view geometry its `update_model` method
reads.  A `SwimlaneItem` holds its line, drawn from the center at the
model angle: `lineAngle` is that direction in degrees, which the
`math.degrees(math.atan2(dy, dx)) % 360` readback in
`SwimlaneItem.update_model` recovers reduced into `[0, 360)`.  An
`OutcomeItem` holds the scene point its ellipse rect is centred on
(`base`, fixed at construction; the current scene position of the item
center is `base + pos`).  A `ScopeBlobItem` carries no geometry here: it
defines neither `set_color`, `setColor` nor `update_model`, and its
`itemChange` ignores position changes. -/
inductive ItemRef where
  | swimlaneItem (key sid : ℕ) (lineAngle : ℚ)
  | outcomeItem (key oid : ℕ) (base : Point)
  | blobItem (key bid : ℕ)
deriving DecidableEq, Repr

/-- The graphics-item identity of an item reference. -/
def ItemRef.key : ItemRef → ℕ
  | .swimlaneItem k _ _ => k
  | .outcomeItem k _ _ => k
  | .blobItem k _ => k

/-- Source `item.pos()` on the keyed view-item position store (a fresh item
sits at the origin). -/
def getItemPos (ps : List (ℕ × Point)) (k : ℕ) : Point :=
  match ps.find? (fun p => p.1 == k) with
  | some p => p.2
  | none => ⟨0, 0⟩

/-- The plain position write of `item.setPos(v)` on the keyed view-item
position store. -/
def setItemPos (ps : List (ℕ × Point)) (k : ℕ) (v : Point) :
    List (ℕ × Point) :=
  ps.map (fun p => if p.1 == k then (p.1, v) else p)

/-- Source angular distance used by the closest-swimlane loop of
`OutcomeItem.update_model`:
`min((s.angle - a) % 360, (a - s.angle) % 360)`. -/
def angleDiff (sangle a : ℚ) : ℚ :=
  min (pymod (sangle - a) 360) (pymod (a - sangle) 360)

/-- Source closest-swimlane loop of `OutcomeItem.update_model`: starting from
an infinite `min_angle_diff`, the first swimlane with a strictly smaller
angular difference wins, so the first listed of equally close swimlanes
is chosen. -/
def closestSwimlane (swimlanes : List Swimlane) (a : ℚ) : Option Swimlane :=
  swimlanes.foldl (fun best s =>
    match best with
    | none => some s
    | some b => if angleDiff s.angle a < angleDiff b.angle a then some s
                else some b) none

/-- Source `OutcomeItem.update_model` together with its trailing
`snap_to_swimlane`: recompute the distance and angle of the item center
`base + pos` from the diagram center, pick the closest swimlane, write
`outcome.swimlane_id` and `outcome.distance` into the model, and snap the
item onto the swimlane line (the snap target for `setPos` is
`position.x - rect.width()/2 - rect.x()`, which is `position - base` for
the construction rect centred on `base`).  Here `normf dx dy` stands for
`math.sqrt(dx*dx + dy*dy)` and `atanDegf dy dx` for
`math.degrees(math.atan2(dy, dx))`, abstract like `cosf`/`sinf`.  The
snap `setPos` retriggers `itemChange(ItemPositionHasChanged)` and hence
`update_model`, but that second pass reads the snapped position, which in
exact arithmetic has the just-written distance and the chosen swimlane
angle, so it rewrites the same values, snaps to the same point and stops;
the embedding performs the single stabilised pass. -/
def outcomeUpdateModel (normf atanDegf : ℚ → ℚ → ℚ) (cosf sinf : ℚ → ℚ)
    (twoPi : ℚ) (d : Diagram) (oid : ℕ) (base : Point)
    (ps : List (ℕ × Point)) (k : ℕ) : Diagram × List (ℕ × Point) :=
  let pos := getItemPos ps k
  let dx := base.x + pos.x - d.center.x
  let dy := base.y + pos.y - d.center.y
  let distance := normf dx dy
  let angle_deg := pymod (atanDegf dy dx) 360
  match closestSwimlane d.swimlanes angle_deg with
  | none => (d, ps)
  | some sw =>
      let d2 := { d with outcomes := d.outcomes.map (fun o =>
        if o.id == oid then
          { o with swimlane_id := sw.id, distance := distance }
        else o) }
      let target := calculate_point_on_line cosf sinf d.center
        (radians twoPi sw.angle) distance
      (d2, setItemPos ps k ⟨target.x - base.x, target.y - base.y⟩)

/-- Source `item.setPos(v)` with its side effects: a no-op when the position
is unchanged (Qt returns early); otherwise the position is written and,
because `OutcomeItem` sets `ItemSendsGeometryChanges` and its
`itemChange(ItemPositionHasChanged)` calls `update_model()`, moving an
outcome item writes `outcome.swimlane_id`/`distance` back into the model;
`SwimlaneItem.itemChange` and `ScopeBlobItem.itemChange` handle only
selection changes, so for those items the call is view-only. -/
def itemSetPos (normf atanDegf : ℚ → ℚ → ℚ) (cosf sinf : ℚ → ℚ)
    (twoPi : ℚ) (d : Diagram) (ps : List (ℕ × Point)) (it : ItemRef)
    (v : Point) : Diagram × List (ℕ × Point) :=
  if getItemPos ps it.key == v then (d, ps)
  else
    match it with
    | .swimlaneItem key _ _ => (d, setItemPos ps key v)
    | .blobItem key _ => (d, setItemPos ps key v)
    | .outcomeItem key oid base =>
        outcomeUpdateModel normf atanDegf cosf sinf twoPi d oid base
          (setItemPos ps key v) key

/-- Source `commands/move_command.py` `MoveCommand`: the item and the old/new
positions captured at construction. -/
structure MoveCmd where
  item : ItemRef
  old_pos : Point
  new_pos : Point
deriving DecidableEq, Repr

/-- Source `MoveCommand.redo`: `item.setPos(new_pos)`.  No item class defines
`update_model_position`, so the hasattr-guarded call after `setPos` never
fires; the model is nevertheless reached when the item is an
`OutcomeItem`, through `setPos` itself (`itemChange` calls
`update_model`). -/
def MoveCmd.redo (normf atanDegf : ℚ → ℚ → ℚ) (cosf sinf : ℚ → ℚ)
    (twoPi : ℚ) (cmd : MoveCmd) (s : SceneState) : SceneState :=
  let r := itemSetPos normf atanDegf cosf sinf twoPi s.diagram
    s.itemPositions cmd.item cmd.new_pos
  { s with diagram := r.1, itemPositions := r.2 }

/-- Source `MoveCommand.undo`: `item.setPos(old_pos)`, with the same dead
`update_model_position` guard and the same `OutcomeItem` model coupling
as `redo`. -/
def MoveCmd.undo (normf atanDegf : ℚ → ℚ → ℚ) (cosf sinf : ℚ → ℚ)
    (twoPi : ℚ) (cmd : MoveCmd) (s : SceneState) : SceneState :=
  let r := itemSetPos normf atanDegf cosf sinf twoPi s.diagram
    s.itemPositions cmd.item cmd.old_pos
  { s with diagram := r.1, itemPositions := r.2 }

/-- Source `commands/change_color_command.py` `ChangeColorCommand`: target item
and the old/new colors captured at construction. -/
structure ChangeColorCmd where
  item : ItemRef
  old_color : Color
  new_color : Color
deriving DecidableEq, Repr

/-- Source `SwimlaneItem.set_color`: writes the color into the model swimlane. -/
def setSwimlaneColor (d : Diagram) (sid : ℕ) (c : Color) : Diagram :=
  { d with swimlanes := d.swimlanes.map (fun s =>
      if s.id == sid then { s with color := c } else s) }

/-- Source `SwimlaneItem.update_model`: reads the line direction back through
`math.degrees(math.atan2(dy, dx)) % 360` and writes it into
`swimlane.angle`; for a line lying at `lineAngle` degrees the readback is
`lineAngle` reduced into `[0, 360)`. -/
def swimlaneUpdateModel (d : Diagram) (sid : ℕ) (lineAngle : ℚ) : Diagram :=
  { d with swimlanes := d.swimlanes.map (fun s =>
      if s.id == sid then { s with angle := pymod lineAngle 360 } else s) }

/-- The `set_color`/`setColor` hasattr dispatch of
`ChangeColorCommand.redo`/`undo`: only `SwimlaneItem` defines `set_color`
(writing `swimlane.color` into the model); `OutcomeItem` and
`ScopeBlobItem` define neither `set_color` nor `setColor` (nor do their
Qt base classes), so for them the color dispatch does nothing. -/
def applyColor (d : Diagram) (t : ItemRef) (c : Color) : Diagram :=
  match t with
  | .swimlaneItem _ sid _ => setSwimlaneColor d sid c
  | .outcomeItem _ _ _ => d
  | .blobItem _ _ => d

/-- The `update_model` hasattr dispatch that `ChangeColorCommand.redo`/`undo`
run after the color dispatch: `SwimlaneItem.update_model` rewrites the
angle from the line readback, `OutcomeItem.update_model` rewrites
`outcome.swimlane_id`/`distance` from the item position (and snaps the
item); `ScopeBlobItem` has no `update_model`, so nothing happens. -/
def applyUpdateModel (normf atanDegf : ℚ → ℚ → ℚ) (cosf sinf : ℚ → ℚ)
    (twoPi : ℚ) (d : Diagram) (ps : List (ℕ × Point)) (t : ItemRef) :
    Diagram × List (ℕ × Point) :=
  match t with
  | .swimlaneItem _ sid lineAngle => (swimlaneUpdateModel d sid lineAngle, ps)
  | .outcomeItem key oid base =>
      outcomeUpdateModel normf atanDegf cosf sinf twoPi d oid base ps key
  | .blobItem _ _ => (d, ps)

/-- Source `ChangeColorCommand.redo`: the color dispatch with the new color,
then the `update_model` dispatch. -/
def ChangeColorCmd.redo (normf atanDegf : ℚ → ℚ → ℚ) (cosf sinf : ℚ → ℚ)
    (twoPi : ℚ) (cmd : ChangeColorCmd) (s : SceneState) : SceneState :=
  let r := applyUpdateModel normf atanDegf cosf sinf twoPi
    (applyColor s.diagram cmd.item cmd.new_color) s.itemPositions cmd.item
  { s with diagram := r.1, itemPositions := r.2 }

/-- Source `ChangeColorCommand.undo`: the color dispatch with the old color,
then the `update_model` dispatch. -/
def ChangeColorCmd.undo (normf atanDegf : ℚ → ℚ → ℚ) (cosf sinf : ℚ → ℚ)
    (twoPi : ℚ) (cmd : ChangeColorCmd) (s : SceneState) : SceneState :=
  let r := applyUpdateModel normf atanDegf cosf sinf twoPi
    (applyColor s.diagram cmd.item cmd.old_color) s.itemPositions cmd.item
  { s with diagram := r.1, itemPositions := r.2 }

/-!
## Persistence codec (`src/models/` `to_dict`/`from_dict`)

`QColor.name()` yields `#rrggbb` (alpha dropped); parsing such a string
yields an opaque color.  `QColor.name(QColor.HexArgb)` keeps all four
channels.
-/

/-- The information content of a `#rrggbb` color string. -/
structure ColorRGB where
  r : ℕ
  g : ℕ
  b : ℕ
deriving DecidableEq, Repr

/-- Source `QColor.name()`: serializes r/g/b, dropping alpha. -/
def Color.name (c : Color) : ColorRGB :=
  ⟨c.r, c.g, c.b⟩

/-- Source Parsing a `#rrggbb` string via `QColor`: parses with alpha 255. -/
def qcolorOfName (n : ColorRGB) : Color :=
  ⟨n.r, n.g, n.b, 255⟩

/-- Source `Swimlane.to_dict` document: id, angle, label, `color.name()`. -/
structure SwimlaneDoc where
  id : Option ℕ
  angle : ℚ
  label : String
  color : ColorRGB
deriving DecidableEq, Repr

/-- Source `Outcome.to_dict` document: id, swimlane_id, distance, label. -/
structure OutcomeDoc where
  id : Option ℕ
  swimlane_id : ℕ
  distance : ℚ
  label : String
deriving DecidableEq, Repr

/-- Source `ScopeBlob.to_dict` document: id, points, `color.name(HexArgb)` (all
four channels), label and the four endpoint ids (or `None`). -/
structure BlobDoc where
  id : Option ℕ
  points : List Point
  color : Color
  label : String
  start_swimlane_id : Option ℕ
  end_swimlane_id : Option ℕ
  start_outcome_id : Option ℕ
  end_outcome_id : Option ℕ
deriving DecidableEq, Repr

/-- Source `Diagram.to_dict` document. -/
structure DiagramDoc where
  center : Point
  swimlanes : List SwimlaneDoc
  outcomes : List OutcomeDoc
  blobs : List BlobDoc
deriving DecidableEq, Repr

/-- Source `Swimlane.to_dict`. -/
def Swimlane.to_dict (s : Swimlane) : SwimlaneDoc :=
  ⟨some s.id, s.angle, s.label, s.color.name⟩

/-- Source `Outcome.to_dict`. -/
def Outcome.to_dict (o : Outcome) : OutcomeDoc :=
  ⟨some o.id, o.swimlane_id, o.distance, o.label⟩

/-- Source `ScopeBlob.to_dict`: the endpoint ids are taken from the referenced
objects when present (`self.start_swimlane.id if self.start_swimlane else
None`, ...). -/
def ScopeBlob.to_dict (b : ScopeBlob) : BlobDoc :=
  ⟨some b.id, b.points, b.color, b.label,
   b.start_swimlane, b.end_swimlane, b.start_outcome, b.end_outcome⟩

/-- Source `Diagram.to_dict`. -/
def Diagram.to_dict (d : Diagram) : DiagramDoc :=
  ⟨d.center, d.swimlanes.map Swimlane.to_dict, d.outcomes.map Outcome.to_dict,
   d.blobs.map ScopeBlob.to_dict⟩

/-- An endpoint reference is round-trip safe when it is absent, or names a
nonzero id that is a key of the given dict. -/
def refOk (keys : List ℕ) (ref : Option ℕ) : Bool :=
  match ref with
  | none => true
  | some i => !(i == 0) && keys.contains i

/-- Source `Swimlane.from_dict`: reconstructs with `id = data.get id` going
through `id or generate_unique_id()`. -/
def Swimlane.from_dict (doc : SwimlaneDoc) (c : ℕ) : Swimlane × ℕ :=
  let idc := pyIdOr doc.id c
  (⟨idc.1, doc.angle, doc.label, qcolorOfName doc.color⟩, idc.2)

/-- Source `Outcome.from_dict` (fresh empty `associated_blobs`). -/
def Outcome.from_dict (doc : OutcomeDoc) (c : ℕ) : Outcome × ℕ :=
  let idc := pyIdOr doc.id c
  (⟨idc.1, doc.swimlane_id, doc.distance, doc.label, []⟩, idc.2)

/-- Source the `ScopeBlob.from_dict` linking step: `if start_id and start_id in swimlanes` — the stored id is
kept only when truthy (≠ 0) and a key of the given dict. -/
def resolveRef (keys : List ℕ) (ref : Option ℕ) : Option ℕ :=
  match ref with
  | none => none
  | some i => if i ≠ 0 ∧ keys.contains i then some i else none

/-- Source `ScopeBlob.from_dict` with the diagram swimlane and outcome dicts. -/
def ScopeBlob.from_dict (doc : BlobDoc) (swimlanes : List Swimlane)
    (outcomes : List Outcome) (c : ℕ) : ScopeBlob × ℕ :=
  let idc := pyIdOr doc.id c
  let swKeys := swimlanes.map (fun s => s.id)
  let outKeys := outcomes.map (fun o => o.id)
  (⟨idc.1, doc.points, doc.color, doc.label,
    resolveRef swKeys doc.start_swimlane_id,
    resolveRef swKeys doc.end_swimlane_id,
    resolveRef outKeys doc.start_outcome_id,
    resolveRef outKeys doc.end_outcome_id⟩,
   idc.2)

/-- The swimlane-rebuilding loop of `Diagram.from_dict`
(`diagram.swimlanes[swimlane.id] = swimlane` per document entry). -/
def fromDictSwimlanes (docs : List SwimlaneDoc) (acc : List Swimlane × ℕ) :
    List Swimlane × ℕ :=
  docs.foldl
    (fun acc2 sd =>
      let sc := Swimlane.from_dict sd acc2.2
      (dictInsertSwimlane acc2.1 sc.1, sc.2))
    acc

/-- The outcome-rebuilding loop of `Diagram.from_dict`. -/
def fromDictOutcomes (docs : List OutcomeDoc) (acc : List Outcome × ℕ) :
    List Outcome × ℕ :=
  docs.foldl
    (fun acc2 od =>
      let oc := Outcome.from_dict od acc2.2
      (dictInsertOutcome acc2.1 oc.1, oc.2))
    acc

/-- The blob-rebuilding loop of `Diagram.from_dict` (appends each rebuilt
blob, linked against the rebuilt swimlane and outcome dicts). -/
def fromDictBlobs (docs : List BlobDoc) (swimlanes : List Swimlane)
    (outcomes : List Outcome) (acc : List ScopeBlob × ℕ) :
    List ScopeBlob × ℕ :=
  docs.foldl
    (fun acc2 bd =>
      let bc := ScopeBlob.from_dict bd swimlanes outcomes acc2.2
      (acc2.1 ++ [bc.1], bc.2))
    acc

/-- Source `Diagram.from_dict`: rebuilds swimlanes, then outcomes, then blobs (each
blob linked against the already-rebuilt swimlane/outcome dicts). -/
def Diagram.from_dict (doc : DiagramDoc) (c : ℕ) : Diagram × ℕ :=
  let swc := fromDictSwimlanes doc.swimlanes ([], c)
  let outc := fromDictOutcomes doc.outcomes ([], swc.2)
  let blc := fromDictBlobs doc.blobs swc.1 outc.1 ([], outc.2)
  (⟨doc.center, swc.1, outc.1, blc.1⟩, blc.2)

/-!
## Id-assignment runs (`utils/id_generator.py` with entity constructors)

A creation step either lets the constructor generate the id (`auto`) or
supplies one externally (`explicit i`, as `from_dict` does); every
constructor runs `id or generate_unique_id()` (`pyIdOr`).
-/

/-!
## Derived positions and model well-formedness
-/

/-- Derived position of an outcome in a `src/models/` diagram, recomputed
from the owning swimlane angle and the outcome distance exactly as
`views/outcome_item.py` does (`calculate_point_on_line(center,
math.radians(swimlane.angle), outcome.distance)` after looking the swimlane
up by id); `none` when either lookup fails. -/
def derivedPositionOf (cosf sinf : ℚ → ℚ) (twoPi : ℚ) (d : Diagram)
    (oid : ℕ) : Option Point :=
  match d.outcomes.find? (fun o => o.id == oid) with
  | none => none
  | some o =>
      match d.swimlanes.find? (fun s => s.id == o.swimlane_id) with
      | none => none
      | some sw =>
          some (calculate_point_on_line cosf sinf d.center
            (radians twoPi sw.angle) o.distance)

/-- Consistency of the manually maintained dual association lists: every
entry of an outcome `associated_blobs` list names a live blob that has this
outcome as its start or end endpoint, and the lists are duplicate-free. -/
def AssocWF (d : Diagram) : Prop :=
  (∀ o ∈ d.outcomes, o.associated_blobs.Nodup) ∧
  (∀ o ∈ d.outcomes, ∀ bid ∈ o.associated_blobs,
    ∃ b ∈ d.blobs, b.id = bid ∧
      (b.start_outcome = some o.id ∨ b.end_outcome = some o.id))

/-- One entity creation: id auto-generated or externally supplied. -/
inductive IdStep where
  | auto
  | explicit (i : ℕ)
deriving DecidableEq, Repr

/-- The id assigned by one creation step, with the new counter. -/
def stepId (c : ℕ) : IdStep → ℕ × ℕ
  | .auto => pyIdOr none c
  | .explicit i => pyIdOr (some i) c

/-- The ids assigned by a sequence of entity creations starting from counter
`c` (the counter is module-global and shared by all constructors). -/
def runIds (c : ℕ) : List IdStep → List ℕ
  | [] => []
  | st :: rest =>
      let ic := stepId c st
      ic.1 :: runIds ic.2 rest

/-- The externally supplied ids of a creation sequence, in order. -/
def explicitIds : List IdStep → List ℕ
  | [] => []
  | IdStep.auto :: rest => explicitIds rest
  | IdStep.explicit i :: rest => i :: explicitIds rest

/-!
## Concrete fixtures used by witnesses and counterexamples
-/

/-- Fixture swimlane at angle 0. -/
def fixSwimlane1 : Swimlane := ⟨1, 0, "A", segment1⟩

/-- Fixture swimlane at angle 90. -/
def fixSwimlane2 : Swimlane := ⟨2, 90, "B", segment2⟩

/-- Fixture outcome on swimlane 1, associated with blob 5. -/
def fixOutcome3 : Outcome := ⟨3, 1, 100, "Launch", [5]⟩

/-- Fixture outcome on swimlane 2, associated with blob 5. -/
def fixOutcome4 : Outcome := ⟨4, 2, 100, "Scale", [5]⟩

/-- Fixture blob spanning outcomes 3 and 4. -/
def fixBlob5 : ScopeBlob :=
  ⟨5, [⟨100, 0⟩, ⟨0, 100⟩, ⟨30, 30⟩], Color.setAlpha segment1 80, "",
   some 1, some 2, some 3, some 4⟩

/-- Fixture diagram: two swimlanes, two outcomes, one connecting blob. -/
def fixDiagram : Diagram :=
  ⟨⟨0, 0⟩, [fixSwimlane1, fixSwimlane2], [fixOutcome3, fixOutcome4], [fixBlob5]⟩

/-- Fixture blob referencing swimlane 1 only through its
`start_swimlane` field (no outcome endpoints), as produced by drawing a blob
on a swimlane without outcomes. -/
def c2Blob : ScopeBlob := ⟨2, [], segment1, "", some 1, none, none, none⟩

/-- Fixture diagram for the cascade counterexample: one swimlane, no
outcomes, one blob referencing the swimlane. -/
def c2Diagram : Diagram := ⟨⟨0, 0⟩, [⟨1, 0, "A", segment1⟩], [], [c2Blob]⟩

/-- Fixture freehand blob (no endpoint references), id 1. -/
def blobA : ScopeBlob := ⟨1, [], segment1, "", none, none, none, none⟩

/-- Fixture freehand blob (no endpoint references), id 2. -/
def blobB : ScopeBlob := ⟨2, [], segment2, "", none, none, none, none⟩

/-- Fixture scene holding exactly the two freehand blobs. -/
def c1Scene : SceneState :=
  ⟨⟨⟨0, 0⟩, [], [], [blobA, blobB]⟩, 2, [], [], none, none, none, none⟩

/-- Fixture scene over the empty diagram. -/
def emptyScene : SceneState :=
  ⟨Diagram.empty, 0, [], [], none, none, none, none⟩

/-- Fixture outcome sitting on swimlane 2, for the Move counterexample. -/
def c1mOutcome : Outcome := ⟨3, 2, 100, "x", []⟩

/-- Fixture scene with two swimlanes at the same angle and one outcome on
the second: the closest-swimlane loop of `OutcomeItem.update_model`
strictly prefers the first of two equally close swimlanes, whatever the
angle readback is. -/
def c1mScene : SceneState :=
  ⟨⟨⟨0, 0⟩, [⟨1, 0, "A", segment1⟩, ⟨2, 0, "B", segment2⟩], [c1mOutcome], []⟩,
   3, [], [(7, ⟨0, 0⟩)], none, none, none, none⟩

/-- Fixture outcome item wrapping the outcome of `c1mScene`, centred on its
model position. -/
def c1mItem : ItemRef := ItemRef.outcomeItem 7 3 ⟨100, 0⟩

/-- Fixture move of that outcome item. -/
def c1mMove : MoveCmd := ⟨c1mItem, ⟨0, 0⟩, ⟨1, 1⟩⟩

/-- Fixture scene whose swimlane angle -90 lies outside the `[0, 360)`
readback range of `SwimlaneItem.update_model`. -/
def c1cScene : SceneState :=
  ⟨⟨⟨0, 0⟩, [⟨1, -90, "A", segment1⟩], [], []⟩, 1, [], [], none, none,
   none, none⟩

/-- Fixture color change on the swimlane item of `c1cScene` (its line drawn
at the model angle -90). -/
def c1cColor : ChangeColorCmd :=
  ⟨ItemRef.swimlaneItem 5 1 (-90), segment1, segment2⟩

/-- Concrete stand-in for the abstract two-argument readbacks (sqrt/atan2)
in the closed counterexample; the failures exhibited there never inspect
its values. -/
def cexF2 : ℚ → ℚ → ℚ := fun _ _ => 0

/-- Concrete stand-in for the abstract cosine in the closed counterexample. -/
def cexCos : ℚ → ℚ := fun _ => 1

/-- Concrete stand-in for the abstract sine in the closed counterexample. -/
def cexSin : ℚ → ℚ := fun _ => 0

/-- Fixture scene over `fixDiagram` with outcome items and endpoint
selections, counter 10. -/
def witScene : SceneState :=
  ⟨fixDiagram, 10, [(3, [5]), (4, [5])], [(7, ⟨1, 2⟩)],
   some 1, some 2, some 3, some 4⟩

/-- Fixture `radial_diagram.py` diagram with a single swimlane named A. -/
def rdFixture : RDDiagram :=
  ⟨⟨0, 0⟩, [("A", ⟨1, "A", 0, 250, segment1, []⟩)], []⟩

/-!
## Generic list lemmas used by several proofs
-/

theorem map_eq_self_of {α : Type} {f : α → α} {l : List α}
    (h : ∀ a ∈ l, f a = a) : l.map f = l := by
  induction l with
  | nil => rfl
  | cons x xs ih =>
      simp only [List.map_cons]
      rw [h x (List.mem_cons_self x xs), ih (fun a ha => h a (List.mem_cons_of_mem x ha))]

theorem eraseP_no_match {α β : Type} [DecidableEq β] (f : α → β) (k : β)
    {l : List α} (h : (l.map f).Nodup) :
    ∀ x ∈ l.eraseP (fun x => f x == k), f x ≠ k := by
  induction l with
  | nil => intro x hx; simp [List.eraseP] at hx
  | cons y ys ih =>
      simp only [List.map_cons, List.nodup_cons] at h
      intro x hx
      by_cases hy : f y = k
      · rw [List.eraseP_cons_of_pos (by simp [hy])] at hx
        intro hfx
        apply h.1
        rw [hy, ← hfx]
        exact List.mem_map_of_mem f hx
      · rw [List.eraseP_cons_of_neg (by simp [hy])] at hx
        rcases List.mem_cons.mp hx with hcase | hcase
        · exact hcase ▸ hy
        · exact ih h.2 x hcase

theorem mem_eraseP_of_neg {α : Type} {p : α → Bool} {l : List α} {x : α}
    (hx : x ∈ l) (hp : p x = false) : x ∈ l.eraseP p := by
  induction l with
  | nil => cases hx
  | cons y ys ih =>
      by_cases hy : p y
      · rw [List.eraseP_cons_of_pos hy]
        rcases List.mem_cons.mp hx with hcase | hcase
        · exact absurd (hcase ▸ hy) (by simp [hp])
        · exact hcase
      · rw [List.eraseP_cons_of_neg hy]
        rcases List.mem_cons.mp hx with hcase | hcase
        · exact hcase ▸ List.mem_cons_self x _
        · exact List.mem_cons_of_mem y (ih hcase)

theorem eraseP_append_of_none {α : Type} {p : α → Bool} {l₁ l₂ : List α}
    (h : ∀ a ∈ l₁, p a = false) :
    (l₁ ++ l₂).eraseP p = l₁ ++ l₂.eraseP p := by
  induction l₁ with
  | nil => rfl
  | cons x xs ih =>
      simp only [List.cons_append]
      rw [List.eraseP_cons_of_neg (by simp [h x (List.mem_cons_self x xs)]),
        ih (fun a ha => h a (List.mem_cons_of_mem x ha))]

theorem nodup_map_inj {α β : Type} {f : α → β} {l : List α}
    (h : (l.map f).Nodup) {a b : α} (ha : a ∈ l) (hb : b ∈ l)
    (hf : f a = f b) : a = b := by
  induction l with
  | nil => cases ha
  | cons x xs ih =>
      simp only [List.map_cons, List.nodup_cons] at h
      rcases List.mem_cons.mp ha with hca | hca <;>
        rcases List.mem_cons.mp hb with hcb | hcb
      · exact hca.trans hcb.symm
      · exfalso
        apply h.1
        have hx : f x = f b := by rw [← hca]; exact hf
        rw [hx]
        exact List.mem_map_of_mem f hcb
      · exfalso
        apply h.1
        have hx : f x = f a := by rw [← hcb]; exact hf.symm
        rw [hx]
        exact List.mem_map_of_mem f hca
      · exact ih h.2 hca hcb

theorem erase_erase_of_nodup {l : List ℕ} (h : l.Nodup) (a : ℕ) :
    (l.erase a).erase a = l.erase a := by
  apply List.erase_of_not_mem
  intro hmem
  exact ((List.Nodup.mem_erase_iff h).mp hmem).1 rfl

theorem map_eraseP_key {α β : Type} [DecidableEq β] (f : α → β) (k : β)
    (l : List α) :
    (l.eraseP (fun x => f x == k)).map f = (l.map f).eraseP (fun y => y == k) := by
  induction l with
  | nil => rfl
  | cons x xs ih =>
      by_cases hx : f x = k
      · rw [List.eraseP_cons_of_pos (by simp [hx]), List.map_cons,
          List.eraseP_cons_of_pos (by simp [hx])]
      · rw [List.eraseP_cons_of_neg (by simp [hx]), List.map_cons, List.map_cons,
          List.eraseP_cons_of_neg (by simp [hx]), ih]

/-!
## C10 — model-layer `add_blob` frame effect
-/

/-- C10: the model-layer `Diagram.add_blob` appends exactly one new blob,
with all four endpoint references `None`, and leaves the center, every
swimlane and every outcome (in particular every `associated_blobs` list)
unchanged; linking is not performed at this layer. -/
theorem C10_add_blob_frame (d : Diagram) (points : List Point) (color : Color)
    (label : String) (c : ℕ) :
    (d.add_blob points color label c).1.center = d.center ∧
    (d.add_blob points color label c).1.swimlanes = d.swimlanes ∧
    (d.add_blob points color label c).1.outcomes = d.outcomes ∧
    (d.add_blob points color label c).1.blobs
      = d.blobs ++ [⟨c + 1, points, color, label, none, none, none, none⟩] :=
  ⟨rfl, rfl, rfl, rfl⟩

/-!
## C5 — derived outcome positions
-/

/-- C5: the derived position of an outcome at distance `d` on a swimlane
with angle `θ` in a diagram centered at `C` is
`(C.x + d·cos(radians θ), C.y + d·sin(radians θ))` — the same point the
spec function `pointAtAngleDistance` (source `calculate_point_on_line`)
yields at angle `radians θ` — and it does not depend on the swimlane
`length`, so changing only the length and recomputing leaves it
unchanged. -/
theorem C5_outcome_position (cosf sinf : ℚ → ℚ) (twoPi : ℚ) (center : Point)
    (sw : RDSwimlane) (dist L : ℚ) :
    calculate_position cosf sinf twoPi center sw.angle dist
      = ⟨center.x + dist * cosf (radians twoPi sw.angle),
         center.y + dist * sinf (radians twoPi sw.angle)⟩ ∧
    calculate_position cosf sinf twoPi center sw.angle dist
      = calculate_point_on_line cosf sinf center (radians twoPi sw.angle) dist ∧
    calculate_position cosf sinf twoPi center
        ({ sw with length := L } : RDSwimlane).angle dist
      = calculate_position cosf sinf twoPi center sw.angle dist :=
  ⟨rfl, rfl, rfl⟩

/-!
## C8 — blob-path angular sweep
-/

/-- C8 counterexample: the single `+= 2π` adjustment does not bound the
sweep for arbitrary real angles.  With `twoPi = 7` as the stand-in for
`2π`: start angle 720°, end angle 0° gives sweep `-7` (negative one full
turn), and start 0°, end 720° gives sweep `14` (two full turns,
exceeding `twoPi`). -/
theorem C8_counterexample :
    blobSweep 7 720 0 = -7 ∧ blobSweep 7 0 720 = 14 := by
  constructor <;> norm_num [blobSweep, adjustEndAngle, radians]

/-- C8 (amended): whenever the two swimlane angles differ by less than
360° — in particular for angles normalized into (-180°, 180°], as the
editor produces — the interpolated sweep of `calculate_blob_points` is
non-negative and at most `2π`. -/
theorem C8_sweep_bounds (twoPi s e : ℚ) (hpos : 0 < twoPi)
    (hdiff : |e - s| < 360) :
    0 ≤ blobSweep twoPi s e ∧ blobSweep twoPi s e ≤ twoPi := by
  rcases abs_lt.mp hdiff with ⟨h1, h2⟩
  simp only [blobSweep, adjustEndAngle, radians]
  have k1 : 0 < (360 - (e - s)) * twoPi := by
    apply mul_pos (by linarith) hpos
  have k2 : 0 < (360 + (e - s)) * twoPi := by
    apply mul_pos (by linarith) hpos
  split <;> constructor <;> nlinarith

/-- C8 witness: the amended bound at the concrete input `twoPi = 7`,
start 0°, end 90°. -/
theorem C8_sweep_bounds_witness :
    (0 : ℚ) < 7 ∧ |(90 : ℚ) - 0| < 360 ∧
    (0 ≤ blobSweep 7 0 90 ∧ blobSweep 7 0 90 ≤ 7) :=
  ⟨by norm_num, by norm_num, C8_sweep_bounds 7 0 90 (by norm_num) (by norm_num)⟩

/-!
## C9 — id uniqueness
-/

/-- C9 counterexample: the counter is not advanced past externally supplied
ids, so reconstructing an entity with id 1 (as `from_dict` does) and then
creating one more entity assigns the id 1 twice — two live entities share an
id.  Moreover an externally supplied id 0 is falsy in
`id or generate_unique_id()` and is replaced by a generated id, so it is
not "assigned from the externally supplied id". -/
theorem C9_counterexample :
    runIds 0 [IdStep.explicit 1, IdStep.auto] = [1, 1] ∧
    ¬ (runIds 0 [IdStep.explicit 1, IdStep.auto]).Nodup ∧
    runIds 0 [IdStep.explicit 0] = [1] := by
  refine ⟨rfl, by decide, rfl⟩

/-- Auxiliary invariant for id-assignment runs: when the externally supplied
ids are nonzero, mutually distinct, and outside the window `(lo, hi]` that
contains every id the counter can generate during the run, the assigned ids
are duplicate-free, and every assigned id is either one of the supplied ids
or a counter-generated id in `(c, c + length]`. -/
theorem runIds_nodup_aux (steps : List IdStep) (lo hi : ℕ) :
    ∀ c, lo ≤ c → c + steps.length ≤ hi →
    (∀ i ∈ explicitIds steps, i ≠ 0) →
    (∀ i ∈ explicitIds steps, ¬(lo < i ∧ i ≤ hi)) →
    (explicitIds steps).Nodup →
    (runIds c steps).Nodup ∧
    ∀ x ∈ runIds c steps,
      x ∈ explicitIds steps ∨ (c < x ∧ x ≤ c + steps.length) := by
  induction steps with
  | nil => intro c _ _ _ _ _; exact ⟨List.nodup_nil, fun x hx => absurd hx (by simp [runIds])⟩
  | cons st rest ih =>
      intro c hlo hhi hz hrange hnd
      cases st with
      | auto =>
          have hrun : runIds c (IdStep.auto :: rest)
              = (c + 1) :: runIds (c + 1) rest := rfl
          have hex : explicitIds (IdStep.auto :: rest) = explicitIds rest := rfl
          rw [hex] at hz hrange hnd
          have hlen : (c + 1) + rest.length ≤ hi := by
            simpa [Nat.add_comm, Nat.add_assoc, Nat.add_left_comm] using hhi
          obtain ⟨hnd', hmem'⟩ := ih (c + 1) (Nat.le_succ_of_le hlo) hlen hz hrange hnd
          rw [hrun, hex]
          constructor
          · refine List.nodup_cons.mpr ⟨?_, hnd'⟩
            intro hin
            rcases hmem' (c + 1) hin with hcase | hcase
            · exact hrange (c + 1) hcase
                ⟨Nat.lt_succ_of_le hlo, le_trans (Nat.le_add_right _ _) hlen⟩
            · exact absurd hcase.1 (lt_irrefl _)
          · intro x hx
            rcases List.mem_cons.mp hx with hcase | hcase
            · subst hcase
              right
              refine ⟨Nat.lt_succ_self c, ?_⟩
              simp only [List.length_cons]
              omega
            · rcases hmem' x hcase with h1 | h1
              · exact Or.inl h1
              · right
                have h2 := h1.2
                refine ⟨Nat.lt_of_succ_lt h1.1, ?_⟩
                simp only [List.length_cons]
                omega
      | explicit i =>
          have hex : explicitIds (IdStep.explicit i :: rest)
              = i :: explicitIds rest := rfl
          rw [hex] at hz hrange hnd
          have hi0 : i ≠ 0 := hz i (List.mem_cons_self _ _)
          have hrun : runIds c (IdStep.explicit i :: rest)
              = i :: runIds c rest := by
            simp [runIds, stepId, pyIdOr, hi0]
          have hlen : c + rest.length ≤ hi := by
            simp only [List.length_cons] at hhi
            omega
          obtain ⟨hnd', hmem'⟩ := ih c hlo hlen
            (fun j hj => hz j (List.mem_cons_of_mem _ hj))
            (fun j hj => hrange j (List.mem_cons_of_mem _ hj))
            (List.nodup_cons.mp hnd).2
          rw [hrun, hex]
          constructor
          · refine List.nodup_cons.mpr ⟨?_, hnd'⟩
            intro hin
            rcases hmem' i hin with hcase | hcase
            · exact (List.nodup_cons.mp hnd).1 hcase
            · refine hrange i (List.mem_cons_self _ _) ⟨lt_of_le_of_lt hlo hcase.1, ?_⟩
              have h2 := hcase.2
              omega
          · intro x hx
            rcases List.mem_cons.mp hx with hcase | hcase
            · exact Or.inl (hcase ▸ List.mem_cons_self _ _)
            · rcases hmem' x hcase with h1 | h1
              · exact Or.inl (List.mem_cons_of_mem _ h1)
              · right
                have h2 := h1.2
                refine ⟨h1.1, ?_⟩
                simp only [List.length_cons]
                omega

/-- C9 (amended): ids are pairwise distinct and assigned exactly once
provided every externally supplied id is nonzero, the supplied ids are
mutually distinct, and no supplied id falls in the window
`(counter, counter + number of creations]` of ids the counter can generate
during the run (in particular, all-auto runs always yield distinct ids);
a supplied id 0 is replaced by a generated id rather than assigned. -/
theorem C9_ids_distinct (c : ℕ) (steps : List IdStep)
    (hz : ∀ i ∈ explicitIds steps, i ≠ 0)
    (hrange : ∀ i ∈ explicitIds steps, ¬(c < i ∧ i ≤ c + steps.length))
    (hnd : (explicitIds steps).Nodup) :
    (runIds c steps).Nodup := by
  exact (runIds_nodup_aux steps c (c + steps.length) c le_rfl le_rfl hz hrange hnd).1

/-- C9 witness: a load of id 5 followed by two auto-generated ids from
counter 10 yields the distinct ids 11, 5, 12. -/
theorem C9_ids_distinct_witness :
    (runIds 10 [IdStep.auto, IdStep.explicit 5, IdStep.auto]).Nodup ∧
    runIds 10 [IdStep.auto, IdStep.explicit 5, IdStep.auto] = [11, 5, 12] :=
  ⟨C9_ids_distinct 10 [IdStep.auto, IdStep.explicit 5, IdStep.auto]
      (by decide) (by decide) (by decide),
   rfl⟩

/-!
## C6 — unknown-reference validation on add operations
-/

/-- C6 counterexample: the model-layer `Diagram.add_outcome`
(`src/models/diagram.py`) performs no validation of the referenced swimlane
id.  On the empty diagram (no swimlane with id 99), adding an outcome bound
to swimlane 99 succeeds and changes the diagram — it does not fail, and the
diagram is not left unchanged. -/
theorem C6_counterexample :
    (Diagram.empty.add_outcome 99 50 "o" 0).1
      = ⟨⟨0, 0⟩, [], [⟨1, 99, 50, "o", []⟩], []⟩ ∧
    (Diagram.empty.add_outcome 99 50 "o" 0).1 ≠ Diagram.empty ∧
    Diagram.empty.swimlanes.any (fun s => s.id == 99) = false := by
  refine ⟨rfl, by decide, rfl⟩

/-- C6 (amended): the reference validation lives in the controller-layer
model of `radial_diagram.py`: its `add_outcome` fails with a typed error
and leaves the diagram unchanged when the referenced swimlane does not
resolve, while the model-layer `Diagram.add_outcome` of
`src/models/diagram.py` always inserts the outcome, dangling swimlane
reference included. -/
theorem C6_unknown_reference (cosf sinf : ℚ → ℚ) (twoPi : ℚ) (d : RDDiagram)
    (nm : String) (dist : ℚ) (lbl : String) (c : ℕ)
    (h : d.swimlanes.find? (fun p => p.1 == nm) = none) :
    RDDiagram.add_outcome cosf sinf twoPi d nm dist lbl c
      = .error (RDError.swimlaneNotFound nm) ∧
    ∀ (d2 : Diagram) (sid : ℕ) (dist2 : ℚ) (lbl2 : String) (c2 : ℕ),
      (d2.add_outcome sid dist2 lbl2 c2).1.outcomes
        = dictInsertOutcome d2.outcomes ⟨c2 + 1, sid, dist2, lbl2, []⟩ := by
  constructor
  · simp [RDDiagram.add_outcome, h]
  · intro d2 sid dist2 lbl2 c2
    rfl

/-- C6 witness: asking for the unknown swimlane B in a diagram holding only
swimlane A yields the not-found error. -/
theorem C6_unknown_reference_witness :
    RDDiagram.add_outcome (fun _ => 0) (fun _ => 0) 7 rdFixture "B" 50 "x" 1
      = .error (RDError.swimlaneNotFound "B") :=
  (C6_unknown_reference (fun _ => 0) (fun _ => 0) 7 rdFixture "B" 50 "x" 1
    (by decide)).1

/-!
## Projection lemmas for the remove cascade
-/

theorem map_map_proj {α β : Type} (g : α → α) (f : α → β) (l : List α)
    (h : ∀ a, f (g a) = f a) : (l.map g).map f = l.map f := by
  induction l with
  | nil => rfl
  | cons x xs ih => simp [h, ih]

theorem any_proj {α β : Type} (f : α → β) (p : β → Bool) (l : List α) :
    l.any (fun a => p (f a)) = (l.map f).any p := by
  induction l with
  | nil => rfl
  | cons x xs ih => simp [List.any_cons, ih]

theorem map_eraseP_comm {α β : Type} (f : α → β) (q : α → Bool) (p : β → Bool)
    (l : List α) (h : ∀ x, p (f x) = q x) :
    (l.eraseP q).map f = (l.map f).eraseP p := by
  induction l with
  | nil => rfl
  | cons x xs ih =>
      by_cases hx : q x
      · rw [List.eraseP_cons_of_pos hx, List.map_cons,
          List.eraseP_cons_of_pos (by rw [h]; exact hx)]
      · rw [List.eraseP_cons_of_neg hx, List.map_cons, List.map_cons,
          List.eraseP_cons_of_neg (by rw [h]; simpa using hx), ih]

theorem eraseP_no_match_nat (k : ℕ) {l : List ℕ} (h : l.Nodup) :
    ∀ y ∈ l.eraseP (fun y => y == k), y ≠ k := by
  induction l with
  | nil => intro y hy; simp [List.eraseP] at hy
  | cons x xs ih =>
      rcases List.nodup_cons.mp h with ⟨hx, hxs⟩
      intro y hy
      by_cases hk : x = k
      · rw [List.eraseP_cons_of_pos (by simp [hk])] at hy
        intro hyk
        exact hx (hk ▸ hyk ▸ hy)
      · rw [List.eraseP_cons_of_neg (by simp [hk])] at hy
        rcases List.mem_cons.mp hy with hcase | hcase
        · exact hcase ▸ hk
        · exact ih hxs y hcase

theorem deregisterFrom_pairs (outs : List Outcome) (ref : Option ℕ) (bid : ℕ) :
    (deregisterFrom outs ref bid).map (fun o => (o.id, o.swimlane_id))
      = outs.map (fun o => (o.id, o.swimlane_id)) := by
  cases ref with
  | none => rfl
  | some oid =>
      simp only [deregisterFrom]
      apply map_map_proj
      intro o
      by_cases h : o.id == oid <;> simp [h]

theorem remove_blob_swimlanes (d : Diagram) (b : ScopeBlob) :
    (d.remove_blob b).swimlanes = d.swimlanes := by
  simp only [Diagram.remove_blob]
  split <;> rfl

theorem remove_blob_center (d : Diagram) (b : ScopeBlob) :
    (d.remove_blob b).center = d.center := by
  simp only [Diagram.remove_blob]
  split <;> rfl

theorem remove_blob_outcome_pairs (d : Diagram) (b : ScopeBlob) :
    (d.remove_blob b).outcomes.map (fun o => (o.id, o.swimlane_id))
      = d.outcomes.map (fun o => (o.id, o.swimlane_id)) := by
  simp only [Diagram.remove_blob]
  split
  · rw [show ({ d with
        outcomes := deregisterFrom (deregisterFrom d.outcomes b.start_outcome b.id)
          b.end_outcome b.id,
        blobs := d.blobs.eraseP (fun x => x.id == b.id) } : Diagram).outcomes
      = deregisterFrom (deregisterFrom d.outcomes b.start_outcome b.id)
          b.end_outcome b.id from rfl]
    rw [deregisterFrom_pairs, deregisterFrom_pairs]
  · rfl

theorem remove_blob_blobs (d : Diagram) (b : ScopeBlob) :
    (d.remove_blob b).blobs
      = if d.blobs.any (fun x => x.id == b.id)
        then d.blobs.eraseP (fun x => x.id == b.id) else d.blobs := by
  simp only [Diagram.remove_blob]
  split <;> simp_all

theorem foldl_remove_blob_swimlanes (bs : List ScopeBlob) (d : Diagram) :
    (bs.foldl Diagram.remove_blob d).swimlanes = d.swimlanes := by
  induction bs generalizing d with
  | nil => rfl
  | cons b bs ih => rw [List.foldl_cons, ih, remove_blob_swimlanes]

theorem foldl_remove_blob_center (bs : List ScopeBlob) (d : Diagram) :
    (bs.foldl Diagram.remove_blob d).center = d.center := by
  induction bs generalizing d with
  | nil => rfl
  | cons b bs ih => rw [List.foldl_cons, ih, remove_blob_center]

theorem foldl_remove_blob_outcome_pairs (bs : List ScopeBlob) (d : Diagram) :
    (bs.foldl Diagram.remove_blob d).outcomes.map (fun o => (o.id, o.swimlane_id))
      = d.outcomes.map (fun o => (o.id, o.swimlane_id)) := by
  induction bs generalizing d with
  | nil => rfl
  | cons b bs ih => rw [List.foldl_cons, ih, remove_blob_outcome_pairs]

theorem remove_outcome_swimlanes (d : Diagram) (oid : ℕ) :
    (d.remove_outcome oid).swimlanes = d.swimlanes := by
  simp only [Diagram.remove_outcome]
  split
  · exact foldl_remove_blob_swimlanes _ _
  · rfl

theorem remove_outcome_center (d : Diagram) (oid : ℕ) :
    (d.remove_outcome oid).center = d.center := by
  simp only [Diagram.remove_outcome]
  split
  · exact foldl_remove_blob_center _ _
  · rfl

theorem remove_outcome_outcome_pairs (d : Diagram) (oid : ℕ) :
    (d.remove_outcome oid).outcomes.map (fun o => (o.id, o.swimlane_id))
      = if d.outcomes.any (fun o => o.id == oid)
        then (d.outcomes.map (fun o => (o.id, o.swimlane_id))).eraseP
          (fun p => p.1 == oid)
        else d.outcomes.map (fun o => (o.id, o.swimlane_id)) := by
  simp only [Diagram.remove_outcome]
  split
  · show ((List.foldl Diagram.remove_blob d
        (List.filter (blobTouches oid) d.blobs)).outcomes.eraseP
          (fun o => o.id == oid)).map (fun o => (o.id, o.swimlane_id)) = _
    rw [map_eraseP_comm (fun o : Outcome => (o.id, o.swimlane_id))
      (fun o => o.id == oid) (fun p => p.1 == oid) _ (fun x => rfl)]
    rw [foldl_remove_blob_outcome_pairs]
  · rfl

theorem foldl_remove_outcome_swimlanes (oids : List ℕ) (d : Diagram) :
    (oids.foldl Diagram.remove_outcome d).swimlanes = d.swimlanes := by
  induction oids generalizing d with
  | nil => rfl
  | cons oid oids ih => rw [List.foldl_cons, ih, remove_outcome_swimlanes]

theorem remove_swimlane_swimlanes (d : Diagram) (sid : ℕ) :
    (d.remove_swimlane sid).swimlanes
      = if d.swimlanes.any (fun s => s.id == sid)
        then d.swimlanes.eraseP (fun s => s.id == sid) else d.swimlanes := by
  simp only [Diagram.remove_swimlane]
  split
  · show ((List.foldl Diagram.remove_outcome d
        ((d.outcomes.filter (fun o => o.swimlane_id == sid)).map
          (fun o => o.id))).swimlanes.eraseP (fun s => s.id == sid)) = _
    rw [foldl_remove_outcome_swimlanes]
  · rfl

/-!
## C7 — idempotent removal
-/

theorem remove_blob_of_absent (d : Diagram) (b : ScopeBlob)
    (h : d.blobs.any (fun x => x.id == b.id) = false) : d.remove_blob b = d := by
  simp [Diagram.remove_blob, h]

theorem remove_outcome_of_absent (d : Diagram) (oid : ℕ)
    (h : d.outcomes.any (fun o => o.id == oid) = false) :
    d.remove_outcome oid = d := by
  simp [Diagram.remove_outcome, h]

theorem remove_swimlane_of_absent (d : Diagram) (sid : ℕ)
    (h : d.swimlanes.any (fun s => s.id == sid) = false) :
    d.remove_swimlane sid = d := by
  simp [Diagram.remove_swimlane, h]

theorem remove_blob_absent_after (d : Diagram) (b : ScopeBlob)
    (hnd : (d.blobs.map (fun x => x.id)).Nodup) :
    (d.remove_blob b).blobs.any (fun x => x.id == b.id) = false := by
  rw [remove_blob_blobs]
  by_cases h : d.blobs.any (fun x => x.id == b.id)
  · rw [if_pos h]
    rw [any_proj (fun x : ScopeBlob => x.id) (fun y => y == b.id)]
    rw [map_eraseP_comm (fun x : ScopeBlob => x.id) (fun x => x.id == b.id)
      (fun y => y == b.id) _ (fun x => rfl)]
    rw [List.any_eq_false]
    intro y hy
    simpa using eraseP_no_match_nat b.id hnd y hy
  · rw [if_neg h]
    exact Bool.eq_false_iff.mpr h

theorem remove_outcome_absent_after (d : Diagram) (oid : ℕ)
    (hnd : (d.outcomes.map (fun o => o.id)).Nodup) :
    (d.remove_outcome oid).outcomes.any (fun o => o.id == oid) = false := by
  have hids : (d.remove_outcome oid).outcomes.any (fun o => o.id == oid)
      = ((d.remove_outcome oid).outcomes.map (fun o => (o.id, o.swimlane_id))).any
        (fun p => p.1 == oid) := by
    rw [← any_proj (fun o : Outcome => (o.id, o.swimlane_id)) (fun p => p.1 == oid)]
  have hnodup : ((d.outcomes.map (fun o => (o.id, o.swimlane_id))).map
      (fun p => p.1)).Nodup := by
    rw [List.map_map]
    exact hnd
  rw [hids, remove_outcome_outcome_pairs]
  by_cases h : d.outcomes.any (fun o => o.id == oid)
  · rw [if_pos h]
    rw [List.any_eq_false]
    intro p hp
    have := eraseP_no_match (fun p : ℕ × ℕ => p.1) oid
      (l := d.outcomes.map (fun o => (o.id, o.swimlane_id))) hnodup p hp
    simpa using this
  · rw [if_neg h]
    rw [← any_proj (fun o : Outcome => (o.id, o.swimlane_id)) (fun p => p.1 == oid)]
    exact Bool.eq_false_iff.mpr h

theorem remove_swimlane_absent_after (d : Diagram) (sid : ℕ)
    (hnd : (d.swimlanes.map (fun s => s.id)).Nodup) :
    (d.remove_swimlane sid).swimlanes.any (fun s => s.id == sid) = false := by
  rw [remove_swimlane_swimlanes]
  by_cases h : d.swimlanes.any (fun s => s.id == sid)
  · rw [if_pos h]
    rw [any_proj (fun s : Swimlane => s.id) (fun y => y == sid)]
    rw [map_eraseP_comm (fun s : Swimlane => s.id) (fun s => s.id == sid)
      (fun y => y == sid) _ (fun x => rfl)]
    rw [List.any_eq_false]
    intro y hy
    simpa using eraseP_no_match_nat sid hnd y hy
  · rw [if_neg h]
    exact Bool.eq_false_iff.mpr h

/-- C7: each remove operation is idempotent — when the target id is already
absent (blob, outcome, or swimlane), the removal is a no-op rather than an
error, and running a removal twice produces the same end state as running
it once (the second run finds the id absent, since dict keys are
duplicate-free). -/
theorem C7_remove_idempotent (d : Diagram) (b : ScopeBlob) (oid sid : ℕ) :
    (d.blobs.any (fun x => x.id == b.id) = false → d.remove_blob b = d) ∧
    (d.outcomes.any (fun o => o.id == oid) = false → d.remove_outcome oid = d) ∧
    (d.swimlanes.any (fun s => s.id == sid) = false → d.remove_swimlane sid = d) ∧
    ((d.blobs.map (fun x => x.id)).Nodup →
      (d.remove_blob b).remove_blob b = d.remove_blob b) ∧
    ((d.outcomes.map (fun o => o.id)).Nodup →
      (d.remove_outcome oid).remove_outcome oid = d.remove_outcome oid) ∧
    ((d.swimlanes.map (fun s => s.id)).Nodup →
      (d.remove_swimlane sid).remove_swimlane sid = d.remove_swimlane sid) := by
  refine ⟨remove_blob_of_absent d b, remove_outcome_of_absent d oid,
    remove_swimlane_of_absent d sid, ?_, ?_, ?_⟩
  · intro hnd
    exact remove_blob_of_absent _ _ (remove_blob_absent_after d b hnd)
  · intro hnd
    exact remove_outcome_of_absent _ _ (remove_outcome_absent_after d oid hnd)
  · intro hnd
    exact remove_swimlane_of_absent _ _ (remove_swimlane_absent_after d sid hnd)

/-- C7 witness: idempotence and absent-id no-ops at a concrete diagram with
two swimlanes, two outcomes and a connecting blob. -/
theorem C7_remove_idempotent_witness :
    ((fixDiagram.remove_blob fixBlob5).remove_blob fixBlob5
      = fixDiagram.remove_blob fixBlob5) ∧
    ((fixDiagram.remove_outcome 3).remove_outcome 3
      = fixDiagram.remove_outcome 3) ∧
    ((fixDiagram.remove_swimlane 1).remove_swimlane 1
      = fixDiagram.remove_swimlane 1) ∧
    Diagram.empty.remove_outcome 99 = Diagram.empty :=
  ⟨(C7_remove_idempotent fixDiagram fixBlob5 3 1).2.2.2.1 (by decide),
   (C7_remove_idempotent fixDiagram fixBlob5 3 1).2.2.2.2.1 (by decide),
   (C7_remove_idempotent fixDiagram fixBlob5 3 1).2.2.2.2.2 (by decide),
   (C7_remove_idempotent Diagram.empty fixBlob5 99 1).2.1 (by decide)⟩

/-!
## C4 — persistence round trip
-/

theorem swimlane_roundtrip (s : Swimlane) (c : ℕ) (h : s.id ≠ 0) :
    Swimlane.from_dict s.to_dict c
      = ({ s with color := qcolorOfName s.color.name }, c) := by
  simp [Swimlane.from_dict, Swimlane.to_dict, pyIdOr, h]

theorem outcome_roundtrip (o : Outcome) (c : ℕ) (h : o.id ≠ 0) :
    Outcome.from_dict o.to_dict c = ({ o with associated_blobs := [] }, c) := by
  simp [Outcome.from_dict, Outcome.to_dict, pyIdOr, h]

theorem blob_roundtrip (b : ScopeBlob) (swimlanes : List Swimlane)
    (outcomes : List Outcome) (c : ℕ) (h : b.id ≠ 0)
    (hsw : ∀ i, b.start_swimlane = some i
      → i ≠ 0 ∧ (swimlanes.map (fun s => s.id)).contains i = true)
    (hew : ∀ i, b.end_swimlane = some i
      → i ≠ 0 ∧ (swimlanes.map (fun s => s.id)).contains i = true)
    (hso : ∀ i, b.start_outcome = some i
      → i ≠ 0 ∧ (outcomes.map (fun o => o.id)).contains i = true)
    (heo : ∀ i, b.end_outcome = some i
      → i ≠ 0 ∧ (outcomes.map (fun o => o.id)).contains i = true) :
    ScopeBlob.from_dict b.to_dict swimlanes outcomes c = (b, c) := by
  have e1 : resolveRef (swimlanes.map (fun s => s.id)) b.start_swimlane
      = b.start_swimlane := by
    cases hb : b.start_swimlane with
    | none => rfl
    | some i =>
        rcases hsw i hb with ⟨h0, hc⟩
        simp only [resolveRef]
        rw [if_pos ⟨h0, hc⟩]
  have e2 : resolveRef (swimlanes.map (fun s => s.id)) b.end_swimlane
      = b.end_swimlane := by
    cases hb : b.end_swimlane with
    | none => rfl
    | some i =>
        rcases hew i hb with ⟨h0, hc⟩
        simp only [resolveRef]
        rw [if_pos ⟨h0, hc⟩]
  have e3 : resolveRef (outcomes.map (fun o => o.id)) b.start_outcome
      = b.start_outcome := by
    cases hb : b.start_outcome with
    | none => rfl
    | some i =>
        rcases hso i hb with ⟨h0, hc⟩
        simp only [resolveRef]
        rw [if_pos ⟨h0, hc⟩]
  have e4 : resolveRef (outcomes.map (fun o => o.id)) b.end_outcome
      = b.end_outcome := by
    cases hb : b.end_outcome with
    | none => rfl
    | some i =>
        rcases heo i hb with ⟨h0, hc⟩
        simp only [resolveRef]
        rw [if_pos ⟨h0, hc⟩]
  simp only [ScopeBlob.from_dict, ScopeBlob.to_dict, pyIdOr, if_neg h, e1, e2, e3, e4]

theorem fromDictSwimlanes_spec :
    ∀ (ss : List Swimlane) (acc : List Swimlane) (c : ℕ),
    (∀ s ∈ ss, s.id ≠ 0) →
    (∀ s ∈ ss, ∀ a ∈ acc, (a.id == s.id) = false) →
    (ss.map (fun s => s.id)).Nodup →
    fromDictSwimlanes (ss.map Swimlane.to_dict) (acc, c)
      = (acc ++ ss.map (fun s => { s with color := qcolorOfName s.color.name }), c) := by
  intro ss
  induction ss with
  | nil => intro acc c _ _ _; simp [fromDictSwimlanes]
  | cons s ss ih =>
      intro acc c hz hdisj hnd
      have hstep : fromDictSwimlanes ((s :: ss).map Swimlane.to_dict) (acc, c)
          = fromDictSwimlanes (ss.map Swimlane.to_dict)
              (dictInsertSwimlane acc (Swimlane.from_dict s.to_dict c).1,
               (Swimlane.from_dict s.to_dict c).2) := rfl
      rw [hstep, swimlane_roundtrip s c (hz s (List.mem_cons_self _ _))]
      dsimp only
      have hguard : acc.any (fun x =>
          x.id == ({ s with color := qcolorOfName s.color.name } : Swimlane).id)
          = false := by
        rw [List.any_eq_false]
        intro a ha
        simp [hdisj s (List.mem_cons_self _ _) a ha]
      rw [show dictInsertSwimlane acc { s with color := qcolorOfName s.color.name }
          = acc ++ [{ s with color := qcolorOfName s.color.name }] by
        simp [dictInsertSwimlane, hguard]]
      have hz' : ∀ x ∈ ss, x.id ≠ 0 := fun x hx => hz x (List.mem_cons_of_mem _ hx)
      have hdisj' : ∀ x ∈ ss,
          ∀ a ∈ acc ++ [{ s with color := qcolorOfName s.color.name }],
          (a.id == x.id) = false := by
        intro x hx a ha
        rcases List.mem_append.mp ha with hcase | hcase
        · exact hdisj x (List.mem_cons_of_mem _ hx) a hcase
        · have he : a = { s with color := qcolorOfName s.color.name } := by
            simpa using hcase
          subst he
          have hne : s.id ≠ x.id := by
            intro he2
            apply (List.nodup_cons.mp hnd).1
            show s.id ∈ List.map (fun s => s.id) ss
            rw [he2]
            exact List.mem_map_of_mem _ hx
          simpa using hne
      have hIH := ih (acc ++ [{ s with color := qcolorOfName s.color.name }]) c
        hz' hdisj' (List.nodup_cons.mp hnd).2
      rw [hIH]
      simp

theorem fromDictOutcomes_spec :
    ∀ (os : List Outcome) (acc : List Outcome) (c : ℕ),
    (∀ o ∈ os, o.id ≠ 0) →
    (∀ o ∈ os, ∀ a ∈ acc, (a.id == o.id) = false) →
    (os.map (fun o => o.id)).Nodup →
    fromDictOutcomes (os.map Outcome.to_dict) (acc, c)
      = (acc ++ os.map (fun o => { o with associated_blobs := [] }), c) := by
  intro os
  induction os with
  | nil => intro acc c _ _ _; simp [fromDictOutcomes]
  | cons o os ih =>
      intro acc c hz hdisj hnd
      have hstep : fromDictOutcomes ((o :: os).map Outcome.to_dict) (acc, c)
          = fromDictOutcomes (os.map Outcome.to_dict)
              (dictInsertOutcome acc (Outcome.from_dict o.to_dict c).1,
               (Outcome.from_dict o.to_dict c).2) := rfl
      rw [hstep, outcome_roundtrip o c (hz o (List.mem_cons_self _ _))]
      dsimp only
      have hguard : acc.any (fun x =>
          x.id == ({ o with associated_blobs := [] } : Outcome).id) = false := by
        rw [List.any_eq_false]
        intro a ha
        simp [hdisj o (List.mem_cons_self _ _) a ha]
      rw [show dictInsertOutcome acc { o with associated_blobs := [] }
          = acc ++ [{ o with associated_blobs := [] }] by
        simp [dictInsertOutcome, hguard]]
      have hz' : ∀ x ∈ os, x.id ≠ 0 := fun x hx => hz x (List.mem_cons_of_mem _ hx)
      have hdisj' : ∀ x ∈ os,
          ∀ a ∈ acc ++ [{ o with associated_blobs := [] }],
          (a.id == x.id) = false := by
        intro x hx a ha
        rcases List.mem_append.mp ha with hcase | hcase
        · exact hdisj x (List.mem_cons_of_mem _ hx) a hcase
        · have he : a = { o with associated_blobs := [] } := by
            simpa using hcase
          subst he
          have hne : o.id ≠ x.id := by
            intro he2
            apply (List.nodup_cons.mp hnd).1
            show o.id ∈ List.map (fun o => o.id) os
            rw [he2]
            exact List.mem_map_of_mem _ hx
          simpa using hne
      have hIH := ih (acc ++ [{ o with associated_blobs := [] }]) c
        hz' hdisj' (List.nodup_cons.mp hnd).2
      rw [hIH]
      simp

theorem fromDictBlobs_spec (swimlanes : List Swimlane)
    (outcomes : List Outcome) :
    ∀ (bs : List ScopeBlob) (acc : List ScopeBlob) (c : ℕ),
    (∀ b ∈ bs, b.id ≠ 0) →
    (∀ b ∈ bs, ∀ i, b.start_swimlane = some i
      → i ≠ 0 ∧ (swimlanes.map (fun s => s.id)).contains i = true) →
    (∀ b ∈ bs, ∀ i, b.end_swimlane = some i
      → i ≠ 0 ∧ (swimlanes.map (fun s => s.id)).contains i = true) →
    (∀ b ∈ bs, ∀ i, b.start_outcome = some i
      → i ≠ 0 ∧ (outcomes.map (fun o => o.id)).contains i = true) →
    (∀ b ∈ bs, ∀ i, b.end_outcome = some i
      → i ≠ 0 ∧ (outcomes.map (fun o => o.id)).contains i = true) →
    fromDictBlobs (bs.map ScopeBlob.to_dict) swimlanes outcomes (acc, c)
      = (acc ++ bs, c) := by
  intro bs
  induction bs with
  | nil => intro acc c _ _ _ _ _; simp [fromDictBlobs]
  | cons b bs ih =>
      intro acc c hz h1 h2 h3 h4
      have hstep : fromDictBlobs ((b :: bs).map ScopeBlob.to_dict)
            swimlanes outcomes (acc, c)
          = fromDictBlobs (bs.map ScopeBlob.to_dict) swimlanes outcomes
              (acc ++ [(ScopeBlob.from_dict b.to_dict swimlanes outcomes c).1],
               (ScopeBlob.from_dict b.to_dict swimlanes outcomes c).2) := rfl
      rw [hstep, blob_roundtrip b swimlanes outcomes c
        (hz b (List.mem_cons_self _ _))
        (h1 b (List.mem_cons_self _ _)) (h2 b (List.mem_cons_self _ _))
        (h3 b (List.mem_cons_self _ _)) (h4 b (List.mem_cons_self _ _))]
      dsimp only
      rw [ih (acc ++ [b]) c
        (fun x hx => hz x (List.mem_cons_of_mem _ hx))
        (fun x hx => h1 x (List.mem_cons_of_mem _ hx))
        (fun x hx => h2 x (List.mem_cons_of_mem _ hx))
        (fun x hx => h3 x (List.mem_cons_of_mem _ hx))
        (fun x hx => h4 x (List.mem_cons_of_mem _ hx))]
      simp

theorem refOk_spec {keys : List ℕ} {ref : Option ℕ} (h : refOk keys ref = true) :
    ∀ i, ref = some i → i ≠ 0 ∧ keys.contains i = true := by
  intro i hi
  subst hi
  simp only [refOk, Bool.and_eq_true, Bool.not_eq_true', beq_eq_false_iff_ne,
    ne_eq] at h
  exact h

theorem find?_map_proj {α : Type} (g : α → α) (p : α → Bool) (l : List α)
    (h : ∀ a, p (g a) = p a) :
    (l.map g).find? p = Option.map g (l.find? p) := by
  induction l with
  | nil => rfl
  | cons x xs ih =>
      by_cases hx : p x
      · rw [List.map_cons, List.find?_cons_of_pos _ (by rw [h]; exact hx),
          List.find?_cons_of_pos _ hx, Option.map_some']
      · rw [List.map_cons, List.find?_cons_of_neg _ (by rw [h]; simpa using hx),
          List.find?_cons_of_neg _ hx, ih]

/-- C4: serializing a diagram (nonzero, duplicate-free entity ids;
endpoint references absent or resolving to live nonzero ids — the only
diagrams the application produces) and deserializing the document yields a
diagram with identical swimlane, outcome and blob ids, identical angles,
distances, labels, endpoint associations and center — hence identical
derived positions, recomputed from angle and distance rather than stored —
with the same id counter.  (Swimlane colors lose their alpha channel and
outcome `associated_blobs` caches are reset, neither of which the claim
covers.) -/
theorem C4_roundtrip (d : Diagram) (c : ℕ)
    (hsw0 : ∀ s ∈ d.swimlanes, s.id ≠ 0)
    (hswnd : (d.swimlanes.map (fun s => s.id)).Nodup)
    (hout0 : ∀ o ∈ d.outcomes, o.id ≠ 0)
    (houtnd : (d.outcomes.map (fun o => o.id)).Nodup)
    (hb0 : ∀ b ∈ d.blobs, b.id ≠ 0)
    (hbsw : ∀ b ∈ d.blobs,
      refOk (d.swimlanes.map (fun s => s.id)) b.start_swimlane = true)
    (hbew : ∀ b ∈ d.blobs,
      refOk (d.swimlanes.map (fun s => s.id)) b.end_swimlane = true)
    (hbso : ∀ b ∈ d.blobs,
      refOk (d.outcomes.map (fun o => o.id)) b.start_outcome = true)
    (hbeo : ∀ b ∈ d.blobs,
      refOk (d.outcomes.map (fun o => o.id)) b.end_outcome = true) :
    Diagram.from_dict d.to_dict c
      = (⟨d.center,
          d.swimlanes.map (fun s => { s with color := qcolorOfName s.color.name }),
          d.outcomes.map (fun o => { o with associated_blobs := [] }),
          d.blobs⟩, c) ∧
    (Diagram.from_dict d.to_dict c).1.swimlanes.map (fun s => (s.id, s.angle, s.label))
      = d.swimlanes.map (fun s => (s.id, s.angle, s.label)) ∧
    (Diagram.from_dict d.to_dict c).1.outcomes.map
        (fun o => (o.id, o.swimlane_id, o.distance, o.label))
      = d.outcomes.map (fun o => (o.id, o.swimlane_id, o.distance, o.label)) ∧
    (Diagram.from_dict d.to_dict c).1.blobs = d.blobs ∧
    (∀ (cosf sinf : ℚ → ℚ) (twoPi : ℚ) (oid : ℕ),
      derivedPositionOf cosf sinf twoPi (Diagram.from_dict d.to_dict c).1 oid
        = derivedPositionOf cosf sinf twoPi d oid) := by
  have hkeysSw : (d.swimlanes.map
      (fun s => { s with color := qcolorOfName s.color.name } : Swimlane → Swimlane)).map
        (fun s => s.id)
      = d.swimlanes.map (fun s => s.id) := by
    rw [List.map_map]
    rfl
  have hkeysOut : (d.outcomes.map
      (fun o => { o with associated_blobs := [] } : Outcome → Outcome)).map
        (fun o => o.id)
      = d.outcomes.map (fun o => o.id) := by
    rw [List.map_map]
    rfl
  have hmain : Diagram.from_dict d.to_dict c
      = (⟨d.center,
          d.swimlanes.map (fun s => { s with color := qcolorOfName s.color.name }),
          d.outcomes.map (fun o => { o with associated_blobs := [] }),
          d.blobs⟩, c) := by
    simp only [Diagram.from_dict, Diagram.to_dict]
    rw [fromDictSwimlanes_spec d.swimlanes [] c hsw0
      (fun s _ a ha => absurd ha (List.not_mem_nil a)) hswnd]
    dsimp only
    rw [List.nil_append]
    rw [fromDictOutcomes_spec d.outcomes [] c hout0
      (fun o _ a ha => absurd ha (List.not_mem_nil a)) houtnd]
    dsimp only
    rw [List.nil_append]
    rw [fromDictBlobs_spec
      (d.swimlanes.map (fun s => { s with color := qcolorOfName s.color.name }))
      (d.outcomes.map (fun o => { o with associated_blobs := [] }))
      d.blobs [] c hb0
      (fun b hb i hbi => by
        have := refOk_spec (hbsw b hb) i hbi
        exact ⟨this.1, by rw [hkeysSw]; exact this.2⟩)
      (fun b hb i hbi => by
        have := refOk_spec (hbew b hb) i hbi
        exact ⟨this.1, by rw [hkeysSw]; exact this.2⟩)
      (fun b hb i hbi => by
        have := refOk_spec (hbso b hb) i hbi
        exact ⟨this.1, by rw [hkeysOut]; exact this.2⟩)
      (fun b hb i hbi => by
        have := refOk_spec (hbeo b hb) i hbi
        exact ⟨this.1, by rw [hkeysOut]; exact this.2⟩)]
    dsimp only
    rw [List.nil_append]
  refine ⟨hmain, ?_, ?_, ?_, ?_⟩
  · rw [hmain]
    dsimp only
    rw [List.map_map]
    rfl
  · rw [hmain]
    dsimp only
    rw [List.map_map]
    rfl
  · rw [hmain]
  · intro cosf sinf twoPi oid
    rw [hmain]
    simp only [derivedPositionOf]
    rw [find?_map_proj (fun o : Outcome => { o with associated_blobs := [] })
      (fun o => o.id == oid) d.outcomes (fun a => rfl)]
    cases hos : d.outcomes.find? (fun o => o.id == oid) with
    | none => rfl
    | some o =>
        rw [Option.map_some']
        dsimp only
        rw [find?_map_proj
          (fun s : Swimlane => { s with color := qcolorOfName s.color.name })
          (fun s => s.id == o.swimlane_id) d.swimlanes (fun a => rfl)]
        cases d.swimlanes.find? (fun s => s.id == o.swimlane_id) with
        | none => rfl
        | some sw => rfl

/-- C4 witness: the round trip at the concrete fixture diagram, counter 9. -/
theorem C4_roundtrip_witness :
    (Diagram.from_dict fixDiagram.to_dict 9).1.blobs = fixDiagram.blobs ∧
    (Diagram.from_dict fixDiagram.to_dict 9).1.outcomes.map
        (fun o => (o.id, o.swimlane_id, o.distance, o.label))
      = fixDiagram.outcomes.map (fun o => (o.id, o.swimlane_id, o.distance, o.label)) ∧
    (Diagram.from_dict fixDiagram.to_dict 9).1.swimlanes.map
        (fun s => (s.id, s.angle, s.label))
      = fixDiagram.swimlanes.map (fun s => (s.id, s.angle, s.label)) := by
  have h := C4_roundtrip fixDiagram 9 (by decide) (by decide) (by decide)
    (by decide) (by decide) (by decide) (by decide) (by decide) (by decide)
  exact ⟨h.2.2.2.1, h.2.2.1, h.2.1⟩

/-!
## Command-layer lemmas
-/

theorem modifyLast_append (f : ScopeBlob → ScopeBlob) (l : List ScopeBlob)
    (x : ScopeBlob) : modifyLast f (l ++ [x]) = l ++ [f x] := by
  induction l with
  | nil => rfl
  | cons a l ih =>
      cases l with
      | nil => rfl
      | cons b l2 =>
          show a :: modifyLast f ((b :: l2) ++ [x]) = a :: ((b :: l2) ++ [f x])
          rw [ih]

theorem deregisterFrom_noop (outs : List Outcome) (ref : Option ℕ) (bid : ℕ)
    (h : ∀ o ∈ outs, some o.id = ref → bid ∉ o.associated_blobs) :
    deregisterFrom outs ref bid = outs := by
  cases ref with
  | none => rfl
  | some oid =>
      simp only [deregisterFrom]
      apply map_eq_self_of
      intro o ho
      by_cases hid : o.id == oid
      · rw [if_pos hid,
          List.erase_of_not_mem (h o ho (by simpa using congrArg some (by simpa using hid)))]
      · rw [if_neg hid]

theorem remove_appended_blob (center : Point) (swimlanes : List Swimlane)
    (outcomes : List Outcome) (blobs : List ScopeBlob) (blob : ScopeBlob)
    (hblob : ∀ x ∈ blobs, x.id ≠ blob.id)
    (hassoc : ∀ o ∈ outcomes, blob.id ∉ o.associated_blobs) :
    Diagram.remove_blob ⟨center, swimlanes, outcomes, blobs ++ [blob]⟩ blob
      = ⟨center, swimlanes, outcomes, blobs⟩ := by
  have hany : ((⟨center, swimlanes, outcomes, blobs ++ [blob]⟩ : Diagram).blobs.any
      (fun x => x.id == blob.id)) = true := by
    simp [List.any_append]
  simp only [Diagram.remove_blob, hany, if_true]
  rw [deregisterFrom_noop _ _ _ (fun o ho _ => hassoc o ho),
    deregisterFrom_noop _ _ _ (fun o ho _ => hassoc o ho)]
  rw [eraseP_append_of_none (fun a ha => by simpa using hblob a ha)]
  simp

theorem addBlob_redo_eq (cmd : AddBlobCmd) (s : SceneState) :
    cmd.redo s
      = ({ s with
            diagram :=
              ⟨s.diagram.center, s.diagram.swimlanes, s.diagram.outcomes,
               s.diagram.blobs ++
                 [⟨s.counter + 1, cmd.points,
                   (segmentColor (s.diagram.blobs.length % 4 + 1)).setAlpha 80,
                   cmd.label, s.start_swimlane, s.end_swimlane,
                   s.start_outcome, s.end_outcome⟩]⟩,
            counter := s.counter + 1,
            outcomeItems :=
              itemAppend (itemAppend s.outcomeItems s.start_outcome (s.counter + 1))
                s.end_outcome (s.counter + 1) },
         ⟨s.counter + 1, cmd.points,
          (segmentColor (s.diagram.blobs.length % 4 + 1)).setAlpha 80,
          cmd.label, s.start_swimlane, s.end_swimlane,
          s.start_outcome, s.end_outcome⟩) := by
  simp only [AddBlobCmd.redo, Diagram.add_blob, generate_unique_id]
  rw [modifyLast_append]

theorem addBlob_roundtrip_diagram (cmd : AddBlobCmd) (s : SceneState)
    (hblob : ∀ x ∈ s.diagram.blobs, x.id ≠ s.counter + 1)
    (hassoc : ∀ o ∈ s.diagram.outcomes, (s.counter + 1) ∉ o.associated_blobs) :
    (AddBlobCmd.undo (cmd.redo s).1 (cmd.redo s).2).diagram = s.diagram := by
  rw [addBlob_redo_eq]
  simp only [AddBlobCmd.undo]
  exact remove_appended_blob s.diagram.center s.diagram.swimlanes s.diagram.outcomes
    s.diagram.blobs _ (fun x hx => hblob x hx) hassoc

theorem setItemPos_override (ps : List (ℕ × Point)) (k : ℕ) (v w : Point) :
    setItemPos (setItemPos ps k v) k w = setItemPos ps k w := by
  simp only [setItemPos, List.map_map]
  have hfun : ((fun p : ℕ × Point => if p.1 == k then (p.1, w) else p)
      ∘ (fun p : ℕ × Point => if p.1 == k then (p.1, v) else p))
      = (fun p : ℕ × Point => if p.1 == k then (p.1, w) else p) := by
    funext p
    by_cases h : p.1 = k <;> simp [h]
  rw [hfun]

theorem setSwimlaneColor_override (d : Diagram) (sid : ℕ) (c1 c2 : Color) :
    setSwimlaneColor (setSwimlaneColor d sid c1) sid c2
      = setSwimlaneColor d sid c2 := by
  simp only [setSwimlaneColor, List.map_map]
  have hfun : ((fun s : Swimlane => if s.id == sid then { s with color := c2 } else s)
      ∘ (fun s : Swimlane => if s.id == sid then { s with color := c1 } else s))
      = (fun s : Swimlane => if s.id == sid then { s with color := c2 } else s) := by
    funext sw
    by_cases h : sw.id = sid <;> simp [h]
  rw [hfun]

theorem setSwimlaneColor_restore (d : Diagram) (sid : ℕ) (old : Color)
    (h : ∀ sw ∈ d.swimlanes, sw.id = sid → sw.color = old) :
    setSwimlaneColor d sid old = d := by
  have : d.swimlanes.map
      (fun s => if s.id == sid then { s with color := old } else s) = d.swimlanes := by
    apply map_eq_self_of
    intro sw hsw
    by_cases hid : sw.id == sid
    · rw [if_pos hid, ← h sw hsw (by simpa using hid)]
    · rw [if_neg hid]
  simp only [setSwimlaneColor, this]

theorem itemSetPos_fst_swimlane (normf atanDegf : ℚ → ℚ → ℚ)
    (cosf sinf : ℚ → ℚ) (twoPi : ℚ) (d : Diagram) (ps : List (ℕ × Point))
    (k sid : ℕ) (la : ℚ) (v : Point) :
    (itemSetPos normf atanDegf cosf sinf twoPi d ps
      (ItemRef.swimlaneItem k sid la) v).1 = d := by
  simp only [itemSetPos]
  split <;> rfl

theorem itemSetPos_fst_blob (normf atanDegf : ℚ → ℚ → ℚ)
    (cosf sinf : ℚ → ℚ) (twoPi : ℚ) (d : Diagram) (ps : List (ℕ × Point))
    (k bid : ℕ) (v : Point) :
    (itemSetPos normf atanDegf cosf sinf twoPi d ps
      (ItemRef.blobItem k bid) v).1 = d := by
  simp only [itemSetPos]
  split <;> rfl

theorem outcomeUpdateModel_frame (normf atanDegf : ℚ → ℚ → ℚ)
    (cosf sinf : ℚ → ℚ) (twoPi : ℚ) (d : Diagram) (oid : ℕ) (base : Point)
    (ps : List (ℕ × Point)) (k : ℕ) :
    (outcomeUpdateModel normf atanDegf cosf sinf twoPi d oid base ps
      k).1.center = d.center ∧
    (outcomeUpdateModel normf atanDegf cosf sinf twoPi d oid base ps
      k).1.swimlanes = d.swimlanes ∧
    (outcomeUpdateModel normf atanDegf cosf sinf twoPi d oid base ps
      k).1.blobs = d.blobs := by
  simp only [outcomeUpdateModel]
  split <;> exact ⟨rfl, rfl, rfl⟩

theorem itemSetPos_frame_outcome (normf atanDegf : ℚ → ℚ → ℚ)
    (cosf sinf : ℚ → ℚ) (twoPi : ℚ) (d : Diagram) (ps : List (ℕ × Point))
    (k oid : ℕ) (base v : Point) :
    (itemSetPos normf atanDegf cosf sinf twoPi d ps
      (ItemRef.outcomeItem k oid base) v).1.center = d.center ∧
    (itemSetPos normf atanDegf cosf sinf twoPi d ps
      (ItemRef.outcomeItem k oid base) v).1.swimlanes = d.swimlanes ∧
    (itemSetPos normf atanDegf cosf sinf twoPi d ps
      (ItemRef.outcomeItem k oid base) v).1.blobs = d.blobs := by
  simp only [itemSetPos]
  split
  · exact ⟨rfl, rfl, rfl⟩
  · exact outcomeUpdateModel_frame normf atanDegf cosf sinf twoPi d oid base _ k

theorem changeColor_swimlane_restore (d : Diagram) (sid : ℕ) (la : ℚ)
    (cold cnew : Color)
    (h : ∀ sw ∈ d.swimlanes, sw.id = sid →
      sw.color = cold ∧ sw.angle = pymod la 360) :
    swimlaneUpdateModel (setSwimlaneColor
      (swimlaneUpdateModel (setSwimlaneColor d sid cnew) sid la) sid cold)
      sid la = d := by
  obtain ⟨c, sls, outs, bls⟩ := d
  simp only [setSwimlaneColor, swimlaneUpdateModel, List.map_map]
  congr 1
  apply map_eq_self_of
  intro sw hsw
  by_cases hid : sw.id = sid
  · obtain ⟨hc, ha⟩ := h sw hsw hid
    simp only [Function.comp_apply, hid, beq_self_eq_true, if_true]
    rw [← hc, ← ha, ← hid]
  · simp [Function.comp_apply, hid]

theorem changeColor_swimlane_reapply (d : Diagram) (sid : ℕ) (la : ℚ)
    (cold cnew : Color) :
    swimlaneUpdateModel (setSwimlaneColor
      (swimlaneUpdateModel (setSwimlaneColor
        (swimlaneUpdateModel (setSwimlaneColor d sid cnew) sid la) sid cold)
        sid la) sid cnew) sid la
      = swimlaneUpdateModel (setSwimlaneColor d sid cnew) sid la := by
  obtain ⟨c, sls, outs, bls⟩ := d
  simp only [setSwimlaneColor, swimlaneUpdateModel, List.map_map]
  congr 1
  apply List.map_congr_left
  intro sw hsw
  by_cases hid : sw.id = sid <;> simp [Function.comp_apply, hid]

theorem closestSwimlane_pair_tie (s1 s2 : Swimlane) (a : ℚ)
    (h : s2.angle = s1.angle) :
    closestSwimlane [s1, s2] a = some s1 := by
  simp only [closestSwimlane, List.foldl_cons, List.foldl_nil]
  rw [h, if_neg (lt_irrefl _)]

theorem outcomeUpdateModel_outcomes_of_closest (normf atanDegf : ℚ → ℚ → ℚ)
    (cosf sinf : ℚ → ℚ) (twoPi : ℚ) (d : Diagram) (oid : ℕ) (base : Point)
    (ps : List (ℕ × Point)) (k : ℕ) (sw : Swimlane)
    (h : ∀ a : ℚ, closestSwimlane d.swimlanes a = some sw) :
    (outcomeUpdateModel normf atanDegf cosf sinf twoPi d oid base ps
      k).1.outcomes
      = d.outcomes.map (fun o => if o.id == oid then
          { o with
              swimlane_id := sw.id,
              distance := normf (base.x + (getItemPos ps k).x - d.center.x)
                (base.y + (getItemPos ps k).y - d.center.y) }
          else o) := by
  simp only [outcomeUpdateModel]
  rw [h]

theorem delete_roundtrip_diagram (cmd : DeleteBlobCmd) (s : SceneState)
    (hpres : s.diagram.blobs.any (fun x => x.id == cmd.blob.id) = true) :
    (cmd.undo (cmd.redo s)).diagram
      = ⟨s.diagram.center, s.diagram.swimlanes,
         deregisterFrom (deregisterFrom s.diagram.outcomes cmd.blob.start_outcome
           cmd.blob.id) cmd.blob.end_outcome cmd.blob.id,
         s.diagram.blobs.eraseP (fun x => x.id == cmd.blob.id) ++ [cmd.blob]⟩ := by
  simp only [DeleteBlobCmd.redo, DeleteBlobCmd.undo, Diagram.remove_blob, hpres,
    if_true]

theorem eraseP_append_perm (l : List ScopeBlob) (b : ScopeBlob) (hmem : b ∈ l)
    (hnd : (l.map (fun x => x.id)).Nodup) :
    (l.eraseP (fun x => x.id == b.id) ++ [b]).Perm l := by
  obtain ⟨a, l1, l2, hl1, hpa, hdecomp, herase⟩ :=
    List.exists_of_eraseP (p := fun x => x.id == b.id) hmem
      (by exact beq_self_eq_true b.id)
  have ham : a ∈ l := by
    rw [hdecomp]
    exact List.mem_append_right _ (List.mem_cons_self _ _)
  have hab : a = b := nodup_map_inj hnd ham hmem (by simpa using hpa)
  subst hab
  rw [herase, hdecomp]
  exact List.Perm.trans (List.perm_append_singleton a (l1 ++ l2))
    List.perm_middle.symm

/-!
## C1 — apply-then-revert restores the entity graph
-/

/-- C1 counterexample: three ways `apply(); revert()` fails to restore the
entity graph.  First, deleting the first of two blobs and undoing
re-appends the blob at the tail of `diagram.blobs`, losing the order.
Second, ChangeColor on a swimlane item runs `SwimlaneItem.update_model`,
which rewrites the angle to its `% 360` line readback: angle -90 comes
back as 270 after apply plus revert.  Third, Move on an outcome item runs
`OutcomeItem.update_model`, whose closest-swimlane loop strictly prefers
the first of two equally close swimlanes: the outcome on swimlane 2 is
reassigned to swimlane 1 and revert does not restore it.  The sqrt, atan2,
cos and sin readbacks are instantiated with the concrete stand-ins
`cexF2`/`cexCos`/`cexSin` to keep the statement closed, but the proof
never inspects their values: the tie in the closest-swimlane loop decides
the reassignment for any readbacks. -/
theorem C1_counterexample :
    (((DeleteBlobCmd.construct blobA).undo
        ((DeleteBlobCmd.construct blobA).redo c1Scene)).diagram.blobs
        = [blobB, blobA] ∧
      c1Scene.diagram.blobs = [blobA, blobB] ∧
      ((DeleteBlobCmd.construct blobA).undo
        ((DeleteBlobCmd.construct blobA).redo c1Scene)).diagram
        ≠ c1Scene.diagram) ∧
    ((ChangeColorCmd.undo cexF2 cexF2 cexCos cexSin 360 c1cColor
        (ChangeColorCmd.redo cexF2 cexF2 cexCos cexSin 360 c1cColor
          c1cScene)).diagram.swimlanes.map (fun sw => sw.angle)
        = [(270 : ℚ)] ∧
      c1cScene.diagram.swimlanes.map (fun sw => sw.angle) = [(-90 : ℚ)] ∧
      (ChangeColorCmd.undo cexF2 cexF2 cexCos cexSin 360 c1cColor
        (ChangeColorCmd.redo cexF2 cexF2 cexCos cexSin 360 c1cColor
          c1cScene)).diagram ≠ c1cScene.diagram) ∧
    ((MoveCmd.undo cexF2 cexF2 cexCos cexSin 360 c1mMove
        (MoveCmd.redo cexF2 cexF2 cexCos cexSin 360 c1mMove
          c1mScene)).diagram.outcomes.map (fun o => o.swimlane_id) = [1] ∧
      c1mScene.diagram.outcomes.map (fun o => o.swimlane_id) = [2] ∧
      (MoveCmd.undo cexF2 cexF2 cexCos cexSin 360 c1mMove
        (MoveCmd.redo cexF2 cexF2 cexCos cexSin 360 c1mMove
          c1mScene)).diagram ≠ c1mScene.diagram) := by
  refine ⟨⟨by decide, rfl, by decide⟩, ?_, ?_⟩
  · have hpy : pymod (-90) 360 = 270 := by norm_num [pymod]
    have hmap : (ChangeColorCmd.undo cexF2 cexF2 cexCos cexSin 360 c1cColor
        (ChangeColorCmd.redo cexF2 cexF2 cexCos cexSin 360 c1cColor
          c1cScene)).diagram.swimlanes.map (fun sw => sw.angle)
        = [(270 : ℚ)] := by
      show [pymod (-90) 360] = [(270 : ℚ)]
      rw [hpy]
    refine ⟨hmap, rfl, ?_⟩
    intro heq
    have h2 : (ChangeColorCmd.undo cexF2 cexF2 cexCos cexSin 360 c1cColor
        (ChangeColorCmd.redo cexF2 cexF2 cexCos cexSin 360 c1cColor
          c1cScene)).diagram.swimlanes.map (fun sw => sw.angle)
        = c1cScene.diagram.swimlanes.map (fun sw => sw.angle) := by
      rw [heq]
    rw [hmap] at h2
    exact absurd h2 (by decide)
  · have htie : ∀ a : ℚ, closestSwimlane c1mScene.diagram.swimlanes a
        = some ⟨1, 0, "A", segment1⟩ :=
      fun a => closestSwimlane_pair_tie ⟨1, 0, "A", segment1⟩
        ⟨2, 0, "B", segment2⟩ a rfl
    have hupd : ∀ (d : Diagram) (ps : List (ℕ × Point)),
        d.swimlanes = c1mScene.diagram.swimlanes →
        (∀ o ∈ d.outcomes, o.id = 3) →
        ((outcomeUpdateModel cexF2 cexF2 cexCos cexSin 360 d 3 ⟨100, 0⟩ ps
            7).1.swimlanes = d.swimlanes ∧
         (outcomeUpdateModel cexF2 cexF2 cexCos cexSin 360 d 3 ⟨100, 0⟩ ps
            7).1.outcomes.map (fun o => o.swimlane_id)
           = d.outcomes.map (fun _ => 1) ∧
         (∀ o ∈ (outcomeUpdateModel cexF2 cexF2 cexCos cexSin 360 d 3
            ⟨100, 0⟩ ps 7).1.outcomes, o.id = 3)) := by
      intro d ps hsw hids
      have hcl : ∀ a : ℚ, closestSwimlane d.swimlanes a
          = some ⟨1, 0, "A", segment1⟩ := by
        rw [hsw]
        exact htie
      have hout := outcomeUpdateModel_outcomes_of_closest cexF2 cexF2 cexCos
        cexSin 360 d 3 ⟨100, 0⟩ ps 7 ⟨1, 0, "A", segment1⟩ hcl
      refine ⟨(outcomeUpdateModel_frame cexF2 cexF2 cexCos cexSin 360 d 3
        ⟨100, 0⟩ ps 7).2.1, ?_, ?_⟩
      · rw [hout, List.map_map]
        apply List.map_congr_left
        intro o ho
        simp [hids o ho]
      · intro o ho
        rw [hout] at ho
        obtain ⟨o0, ho0, heq⟩ := List.mem_map.mp ho
        have h3 := hids o0 ho0
        subst heq
        simp [h3]
    have hg1 : ¬ ((getItemPos c1mScene.itemPositions 7
        == (⟨1, 1⟩ : Point)) = true) := by decide
    have hredo : MoveCmd.redo cexF2 cexF2 cexCos cexSin 360 c1mMove c1mScene
        = { c1mScene with
            diagram := (outcomeUpdateModel cexF2 cexF2 cexCos cexSin 360
              c1mScene.diagram 3 ⟨100, 0⟩
              (setItemPos c1mScene.itemPositions 7 ⟨1, 1⟩) 7).1,
            itemPositions := (outcomeUpdateModel cexF2 cexF2 cexCos cexSin
              360 c1mScene.diagram 3 ⟨100, 0⟩
              (setItemPos c1mScene.itemPositions 7 ⟨1, 1⟩) 7).2 } := by
      simp only [MoveCmd.redo, itemSetPos, c1mMove, c1mItem, ItemRef.key]
      rw [if_neg hg1]
    obtain ⟨hA, hB, hC⟩ := hupd c1mScene.diagram
      (setItemPos c1mScene.itemPositions 7 ⟨1, 1⟩) rfl (by decide)
    have hone : ∀ (l : List Outcome), l.map (fun o => o.swimlane_id) = [1] →
        l.map (fun _ => (1 : ℕ)) = [1] := by
      intro l hl
      have hlen : l.length = 1 := by
        have := congrArg List.length hl
        simpa using this
      obtain ⟨a, ha⟩ := List.length_eq_one.mp hlen
      rw [ha]
      rfl
    have hfin : (MoveCmd.undo cexF2 cexF2 cexCos cexSin 360 c1mMove
        (MoveCmd.redo cexF2 cexF2 cexCos cexSin 360 c1mMove
          c1mScene)).diagram.outcomes.map (fun o => o.swimlane_id) = [1] := by
      rw [hredo]
      simp only [MoveCmd.undo, itemSetPos, c1mMove, c1mItem, ItemRef.key]
      by_cases hg2 : (getItemPos (outcomeUpdateModel cexF2 cexF2 cexCos cexSin
          360 c1mScene.diagram 3 ⟨100, 0⟩
          (setItemPos c1mScene.itemPositions 7 ⟨1, 1⟩) 7).2
          7 == (⟨0, 0⟩ : Point)) = true
      · rw [if_pos hg2]
        exact hB
      · rw [if_neg hg2]
        obtain ⟨hA2, hB2, hC2⟩ := hupd (outcomeUpdateModel cexF2 cexF2 cexCos
          cexSin 360 c1mScene.diagram 3 ⟨100, 0⟩
          (setItemPos c1mScene.itemPositions 7 ⟨1, 1⟩) 7).1
          (setItemPos (outcomeUpdateModel cexF2 cexF2 cexCos cexSin 360
            c1mScene.diagram 3 ⟨100, 0⟩
            (setItemPos c1mScene.itemPositions 7 ⟨1, 1⟩) 7).2 7 ⟨0, 0⟩)
          hA hC
        rw [hB2]
        exact hone _ hB
    refine ⟨hfin, rfl, ?_⟩
    intro heq
    have h2 : (MoveCmd.undo cexF2 cexF2 cexCos cexSin 360 c1mMove
        (MoveCmd.redo cexF2 cexF2 cexCos cexSin 360 c1mMove
          c1mScene)).diagram.outcomes.map (fun o => o.swimlane_id)
        = c1mScene.diagram.outcomes.map (fun o => o.swimlane_id) := by
      rw [heq]
    rw [hfin] at h2
    exact absurd h2 (by decide)

/-- C1 (amended): `apply(); revert()` restores the entity graph for AddBlob
(when the generated blob id is fresh, as the counter guarantees); for
Move on swimlane and blob items (their `itemChange` ignores position
changes, so the diagram is untouched); and for ChangeColor on a swimlane
item when the captured old color matches the current color and the
swimlane angle already equals the `% 360` line readback that
`SwimlaneItem.update_model` writes back (on a blob item ChangeColor is a
complete no-op and trivially restores).  Move or ChangeColor on an
outcome item runs `OutcomeItem.update_model`, which rewrites
`outcome.swimlane_id` and `outcome.distance` from the item position, so
in general the round trip preserves only the center, the swimlanes and
the blobs (the counterexample shows a reassigned outcome and a
renormalized swimlane angle surviving revert).  For DeleteBlob the revert
restores the graph only up to blob order and cascade side effects: the
blob is re-appended at the tail of the blob list (the multiset of blobs
is restored, not the order), and model `associated_blobs` entries removed
by the cascade are not re-added. -/
theorem C1_undo_roundtrip (normf atanDegf : ℚ → ℚ → ℚ) (cosf sinf : ℚ → ℚ)
    (twoPi : ℚ) (s : SceneState) (cmdA : AddBlobCmd) (cmdD : DeleteBlobCmd)
    (cmdM : MoveCmd) (cmdC : ChangeColorCmd) :
    ((∀ x ∈ s.diagram.blobs, x.id ≠ s.counter + 1) →
     (∀ o ∈ s.diagram.outcomes, (s.counter + 1) ∉ o.associated_blobs) →
      (AddBlobCmd.undo (cmdA.redo s).1 (cmdA.redo s).2).diagram = s.diagram) ∧
    (s.diagram.blobs.any (fun x => x.id == cmdD.blob.id) = true →
      (cmdD.undo (cmdD.redo s)).diagram
        = ⟨s.diagram.center, s.diagram.swimlanes,
           deregisterFrom (deregisterFrom s.diagram.outcomes
             cmdD.blob.start_outcome cmdD.blob.id) cmdD.blob.end_outcome
             cmdD.blob.id,
           s.diagram.blobs.eraseP (fun x => x.id == cmdD.blob.id)
             ++ [cmdD.blob]⟩) ∧
    (cmdD.blob ∈ s.diagram.blobs →
     (s.diagram.blobs.map (fun x => x.id)).Nodup →
      ((cmdD.undo (cmdD.redo s)).diagram.blobs).Perm s.diagram.blobs) ∧
    (match cmdM.item with
     | ItemRef.swimlaneItem _ _ _ =>
         (MoveCmd.undo normf atanDegf cosf sinf twoPi cmdM
           (MoveCmd.redo normf atanDegf cosf sinf twoPi cmdM s)).diagram
           = s.diagram
     | ItemRef.blobItem _ _ =>
         (MoveCmd.undo normf atanDegf cosf sinf twoPi cmdM
           (MoveCmd.redo normf atanDegf cosf sinf twoPi cmdM s)).diagram
           = s.diagram
     | ItemRef.outcomeItem _ _ _ =>
         (MoveCmd.undo normf atanDegf cosf sinf twoPi cmdM
           (MoveCmd.redo normf atanDegf cosf sinf twoPi cmdM
             s)).diagram.center = s.diagram.center ∧
         (MoveCmd.undo normf atanDegf cosf sinf twoPi cmdM
           (MoveCmd.redo normf atanDegf cosf sinf twoPi cmdM
             s)).diagram.swimlanes = s.diagram.swimlanes ∧
         (MoveCmd.undo normf atanDegf cosf sinf twoPi cmdM
           (MoveCmd.redo normf atanDegf cosf sinf twoPi cmdM
             s)).diagram.blobs = s.diagram.blobs) ∧
    (match cmdC.item with
     | ItemRef.swimlaneItem _ sid la =>
         (∀ sw ∈ s.diagram.swimlanes, sw.id = sid →
            sw.color = cmdC.old_color ∧ sw.angle = pymod la 360) →
         (ChangeColorCmd.undo normf atanDegf cosf sinf twoPi cmdC
           (ChangeColorCmd.redo normf atanDegf cosf sinf twoPi cmdC
             s)).diagram = s.diagram
     | ItemRef.blobItem _ _ =>
         ChangeColorCmd.undo normf atanDegf cosf sinf twoPi cmdC
           (ChangeColorCmd.redo normf atanDegf cosf sinf twoPi cmdC s) = s
     | ItemRef.outcomeItem _ _ _ =>
         (ChangeColorCmd.undo normf atanDegf cosf sinf twoPi cmdC
           (ChangeColorCmd.redo normf atanDegf cosf sinf twoPi cmdC
             s)).diagram.center = s.diagram.center ∧
         (ChangeColorCmd.undo normf atanDegf cosf sinf twoPi cmdC
           (ChangeColorCmd.redo normf atanDegf cosf sinf twoPi cmdC
             s)).diagram.swimlanes = s.diagram.swimlanes ∧
         (ChangeColorCmd.undo normf atanDegf cosf sinf twoPi cmdC
           (ChangeColorCmd.redo normf atanDegf cosf sinf twoPi cmdC
             s)).diagram.blobs = s.diagram.blobs) := by
  refine ⟨fun h1 h2 => addBlob_roundtrip_diagram cmdA s h1 h2,
    fun hpres => delete_roundtrip_diagram cmdD s hpres,
    fun hmem hnd => ?_, ?_, ?_⟩
  · have hpres : s.diagram.blobs.any (fun x => x.id == cmdD.blob.id) = true :=
      List.any_eq_true.mpr ⟨cmdD.blob, hmem, by simp⟩
    rw [delete_roundtrip_diagram cmdD s hpres]
    exact eraseP_append_perm s.diagram.blobs cmdD.blob hmem hnd
  · cases hi : cmdM.item with
    | swimlaneItem k sid la =>
        simp only [MoveCmd.redo, MoveCmd.undo, hi, itemSetPos_fst_swimlane]
    | outcomeItem k oid base =>
        simp only [MoveCmd.redo, MoveCmd.undo, hi]
        obtain ⟨hc1, hs1, hb1⟩ := itemSetPos_frame_outcome normf atanDegf cosf
          sinf twoPi s.diagram s.itemPositions k oid base cmdM.new_pos
        obtain ⟨hc2, hs2, hb2⟩ := itemSetPos_frame_outcome normf atanDegf cosf
          sinf twoPi
          (itemSetPos normf atanDegf cosf sinf twoPi s.diagram s.itemPositions
            (ItemRef.outcomeItem k oid base) cmdM.new_pos).1
          (itemSetPos normf atanDegf cosf sinf twoPi s.diagram s.itemPositions
            (ItemRef.outcomeItem k oid base) cmdM.new_pos).2
          k oid base cmdM.old_pos
        exact ⟨hc2.trans hc1, hs2.trans hs1, hb2.trans hb1⟩
    | blobItem k bid =>
        simp only [MoveCmd.redo, MoveCmd.undo, hi, itemSetPos_fst_blob]
  · cases hi : cmdC.item with
    | swimlaneItem k sid la =>
        intro h
        simp only [ChangeColorCmd.redo, ChangeColorCmd.undo, hi, applyColor,
          applyUpdateModel]
        exact changeColor_swimlane_restore s.diagram sid la cmdC.old_color
          cmdC.new_color h
    | outcomeItem k oid base =>
        simp only [ChangeColorCmd.redo, ChangeColorCmd.undo, hi, applyColor,
          applyUpdateModel]
        obtain ⟨hc1, hs1, hb1⟩ := outcomeUpdateModel_frame normf atanDegf cosf
          sinf twoPi s.diagram oid base s.itemPositions k
        obtain ⟨hc2, hs2, hb2⟩ := outcomeUpdateModel_frame normf atanDegf cosf
          sinf twoPi
          (outcomeUpdateModel normf atanDegf cosf sinf twoPi s.diagram oid base
            s.itemPositions k).1
          oid base
          (outcomeUpdateModel normf atanDegf cosf sinf twoPi s.diagram oid base
            s.itemPositions k).2 k
        exact ⟨hc2.trans hc1, hs2.trans hs1, hb2.trans hb1⟩
    | blobItem k bid =>
        simp only [ChangeColorCmd.redo, ChangeColorCmd.undo, hi, applyColor,
          applyUpdateModel]

/-- C1 witness: the amended round trips at the concrete fixture scene:
AddBlob, DeleteBlob (multiset restoration), Move of a swimlane item, and
ChangeColor of a swimlane item with matching captured color and an
already-normalized angle. -/
theorem C1_undo_roundtrip_witness :
    (AddBlobCmd.undo ((⟨[], "w"⟩ : AddBlobCmd).redo witScene).1
      ((⟨[], "w"⟩ : AddBlobCmd).redo witScene).2).diagram = witScene.diagram ∧
    (((DeleteBlobCmd.construct fixBlob5).undo
        ((DeleteBlobCmd.construct fixBlob5).redo witScene)).diagram.blobs).Perm
      witScene.diagram.blobs ∧
    (MoveCmd.undo (fun _ _ => 0) (fun _ _ => 0) (fun _ => 1) (fun _ => 0) 360
      ⟨ItemRef.swimlaneItem 7 1 0, ⟨0, 0⟩, ⟨3, 4⟩⟩
      (MoveCmd.redo (fun _ _ => 0) (fun _ _ => 0) (fun _ => 1) (fun _ => 0)
        360 ⟨ItemRef.swimlaneItem 7 1 0, ⟨0, 0⟩, ⟨3, 4⟩⟩ witScene)).diagram
      = witScene.diagram ∧
    (ChangeColorCmd.undo (fun _ _ => 0) (fun _ _ => 0) (fun _ => 1)
      (fun _ => 0) 360 ⟨ItemRef.swimlaneItem 7 1 0, segment1, segment3⟩
      (ChangeColorCmd.redo (fun _ _ => 0) (fun _ _ => 0) (fun _ => 1)
        (fun _ => 0) 360 ⟨ItemRef.swimlaneItem 7 1 0, segment1, segment3⟩
        witScene)).diagram
      = witScene.diagram := by
  have h := C1_undo_roundtrip (fun _ _ => 0) (fun _ _ => 0) (fun _ => 1)
    (fun _ => 0) 360 witScene ⟨[], "w"⟩ (DeleteBlobCmd.construct fixBlob5)
    ⟨ItemRef.swimlaneItem 7 1 0, ⟨0, 0⟩, ⟨3, 4⟩⟩
    ⟨ItemRef.swimlaneItem 7 1 0, segment1, segment3⟩
  exact ⟨h.1 (by decide) (by decide), h.2.2.1 (by decide) (by decide),
    h.2.2.2.1, h.2.2.2.2 (by
      have hpy0 : pymod 0 360 = (0 : ℚ) := by norm_num [pymod]
      simp only [hpy0]
      decide)⟩

/-!
## C3 — deterministic re-apply
-/

theorem append_bid_erase (l : List ℕ) (bid : ℕ) (h : bid ∉ l) :
    (l ++ [bid]).erase bid = l := by
  rw [List.erase_append_right _ h, List.erase_cons_head, List.append_nil]

theorem item_round (items : List (ℕ × List ℕ)) (r1 r2 : Option ℕ) (bid : ℕ)
    (h : ∀ p ∈ items, (some p.1 = r1 ∨ some p.1 = r2) → bid ∉ p.2) :
    itemRemove (itemRemove (itemAppend (itemAppend items r1 bid) r2 bid) r1 bid)
      r2 bid = items := by
  cases r1 with
  | none =>
      cases r2 with
      | none => rfl
      | some o2 =>
          show itemRemove (itemAppend items (some o2) bid) (some o2) bid = items
          simp only [itemAppend, itemRemove, List.map_map]
          apply map_eq_self_of
          intro p hp
          by_cases c2 : p.1 = o2
          · subst c2
            have hn : bid ∉ p.2 := h p hp (Or.inr rfl)
            simp [append_bid_erase _ _ hn]
          · simp [c2]
  | some o1 =>
      cases r2 with
      | none =>
          show itemRemove (itemAppend items (some o1) bid) (some o1) bid = items
          simp only [itemAppend, itemRemove, List.map_map]
          apply map_eq_self_of
          intro p hp
          by_cases c1 : p.1 = o1
          · subst c1
            have hn : bid ∉ p.2 := h p hp (Or.inl rfl)
            simp [append_bid_erase _ _ hn]
          · simp [c1]
      | some o2 =>
          simp only [itemAppend, itemRemove, List.map_map]
          apply map_eq_self_of
          intro p hp
          by_cases c1 : p.1 = o1
          · subst c1
            by_cases c2 : p.1 = o2
            · subst c2
              have hn : bid ∉ p.2 := h p hp (Or.inl rfl)
              have e1 : (p.2 ++ [bid, bid]).erase bid = p.2 ++ [bid] := by
                rw [List.erase_append_right _ hn, List.erase_cons_head]
              have e2 : (p.2 ++ [bid]).erase bid = p.2 := append_bid_erase _ _ hn
              simp [e1, e2]
            · have hn : bid ∉ p.2 := h p hp (Or.inl rfl)
              simp [c2, append_bid_erase _ _ hn]
          · by_cases c2 : p.1 = o2
            · subst c2
              have hn : bid ∉ p.2 := h p hp (Or.inr rfl)
              simp [c1, append_bid_erase _ _ hn]
            · simp [c1, c2]

theorem addBlob_roundtrip_full (cmd : AddBlobCmd) (s : SceneState)
    (hblob : ∀ x ∈ s.diagram.blobs, x.id ≠ s.counter + 1)
    (hassoc : ∀ o ∈ s.diagram.outcomes, (s.counter + 1) ∉ o.associated_blobs)
    (hitems : ∀ p ∈ s.outcomeItems, (s.counter + 1) ∉ p.2) :
    AddBlobCmd.undo (cmd.redo s).1 (cmd.redo s).2
      = { s with counter := s.counter + 1 } := by
  rw [addBlob_redo_eq]
  simp only [AddBlobCmd.undo]
  rw [remove_appended_blob s.diagram.center s.diagram.swimlanes s.diagram.outcomes
    s.diagram.blobs _ (fun x hx => hblob x hx) hassoc]
  rw [item_round s.outcomeItems s.start_outcome s.end_outcome (s.counter + 1)
    (fun p hp _ => hitems p hp)]

theorem not_mem_erase_self {l : List ℕ} (h : l.Nodup) (a : ℕ) : a ∉ l.erase a :=
  fun hm => ((List.Nodup.mem_erase_iff h).mp hm).1 rfl

theorem dereg_dereg (O : List Outcome) (r1 r2 : Option ℕ) (bid : ℕ)
    (hnd : ∀ o ∈ O, o.associated_blobs.Nodup) :
    deregisterFrom (deregisterFrom (deregisterFrom (deregisterFrom O r1 bid)
      r2 bid) r1 bid) r2 bid
      = deregisterFrom (deregisterFrom O r1 bid) r2 bid := by
  cases r1 with
  | none =>
      cases r2 with
      | none => rfl
      | some o2 =>
          show deregisterFrom (deregisterFrom O (some o2) bid) (some o2) bid
            = deregisterFrom O (some o2) bid
          simp only [deregisterFrom, List.map_map]
          apply List.map_congr_left
          intro o ho
          by_cases c2 : o.id = o2
          · subst c2
            simp [erase_erase_of_nodup (hnd o ho) bid]
          · simp [c2]
  | some o1 =>
      cases r2 with
      | none =>
          show deregisterFrom (deregisterFrom O (some o1) bid) (some o1) bid
            = deregisterFrom O (some o1) bid
          simp only [deregisterFrom, List.map_map]
          apply List.map_congr_left
          intro o ho
          by_cases c1 : o.id = o1
          · subst c1
            simp [erase_erase_of_nodup (hnd o ho) bid]
          · simp [c1]
      | some o2 =>
          simp only [deregisterFrom, List.map_map]
          apply List.map_congr_left
          intro o ho
          have hno := hnd o ho
          have e1 := erase_erase_of_nodup hno bid
          have e2 := erase_erase_of_nodup (List.Nodup.erase bid hno) bid
          by_cases c1 : o.id = o1
          · subst c1
            by_cases c2 : o.id = o2
            · subst c2
              simp [e1, e2]
            · simp [c2, e1]
          · by_cases c2 : o.id = o2
            · subst c2
              simp [c1, e1]
            · simp [c1, c2]

theorem delete_reapply_diagram (cmd : DeleteBlobCmd) (s : SceneState)
    (hpres : s.diagram.blobs.any (fun x => x.id == cmd.blob.id) = true)
    (hndb : (s.diagram.blobs.map (fun x => x.id)).Nodup)
    (hnda : ∀ o ∈ s.diagram.outcomes, o.associated_blobs.Nodup) :
    (cmd.redo (cmd.undo (cmd.redo s))).diagram = (cmd.redo s).diagram := by
  show Diagram.remove_blob (cmd.undo (cmd.redo s)).diagram cmd.blob
      = Diagram.remove_blob s.diagram cmd.blob
  rw [delete_roundtrip_diagram cmd s hpres]
  have hany2 : ((⟨s.diagram.center, s.diagram.swimlanes,
      deregisterFrom (deregisterFrom s.diagram.outcomes cmd.blob.start_outcome
        cmd.blob.id) cmd.blob.end_outcome cmd.blob.id,
      s.diagram.blobs.eraseP (fun x => x.id == cmd.blob.id)
        ++ [cmd.blob]⟩ : Diagram).blobs.any (fun x => x.id == cmd.blob.id))
      = true := by
    simp [List.any_append]
  simp only [Diagram.remove_blob, hany2, hpres, if_true]
  have houts := dereg_dereg s.diagram.outcomes cmd.blob.start_outcome
    cmd.blob.end_outcome cmd.blob.id hnda
  have hblobs : (s.diagram.blobs.eraseP (fun x => x.id == cmd.blob.id)
      ++ [cmd.blob]).eraseP (fun x => x.id == cmd.blob.id)
      = s.diagram.blobs.eraseP (fun x => x.id == cmd.blob.id) := by
    rw [eraseP_append_of_none (fun a ha => by
      simpa using eraseP_no_match (fun x : ScopeBlob => x.id) cmd.blob.id hndb a ha)]
    simp
  rw [houts, hblobs]

theorem addBlob_reapply (cmd : AddBlobCmd) (s : SceneState)
    (hblob : ∀ x ∈ s.diagram.blobs, x.id ≠ s.counter + 1)
    (hassoc : ∀ o ∈ s.diagram.outcomes, (s.counter + 1) ∉ o.associated_blobs)
    (hitems : ∀ p ∈ s.outcomeItems, (s.counter + 1) ∉ p.2) :
    (cmd.redo (AddBlobCmd.undo (cmd.redo s).1 (cmd.redo s).2)).1.diagram.center
      = (cmd.redo s).1.diagram.center ∧
    (cmd.redo (AddBlobCmd.undo (cmd.redo s).1 (cmd.redo s).2)).1.diagram.swimlanes
      = (cmd.redo s).1.diagram.swimlanes ∧
    (cmd.redo (AddBlobCmd.undo (cmd.redo s).1 (cmd.redo s).2)).1.diagram.outcomes
      = (cmd.redo s).1.diagram.outcomes ∧
    (cmd.redo (AddBlobCmd.undo (cmd.redo s).1 (cmd.redo s).2)).1.diagram.blobs
      = (cmd.redo s).1.diagram.blobs.map
          (fun b => if b.id = s.counter + 1 then { b with id := s.counter + 2 }
            else b) := by
  rw [addBlob_roundtrip_full cmd s hblob hassoc hitems]
  rw [addBlob_redo_eq cmd { s with counter := s.counter + 1 },
    addBlob_redo_eq cmd s]
  refine ⟨rfl, rfl, rfl, ?_⟩
  show s.diagram.blobs ++ [_] = (s.diagram.blobs ++ [_]).map _
  rw [List.map_append]
  have hkeep : s.diagram.blobs.map
      (fun b => if b.id = s.counter + 1 then { b with id := s.counter + 2 }
        else b) = s.diagram.blobs := by
    apply map_eq_self_of
    intro b hb
    rw [if_neg (hblob b hb)]
  rw [hkeep]
  have hsingle : ∀ (x : ScopeBlob), x.id = s.counter + 1 →
      List.map (fun b : ScopeBlob => if b.id = s.counter + 1
        then { b with id := s.counter + 2 } else b) [x]
      = [{ x with id := s.counter + 2 }] := by
    intro x hx
    simp [hx]
  rw [hsingle _ rfl]

/-- C3 counterexample: `AddBlobCommand.redo` creates a fresh blob id on each
application, so apply–revert–apply from the empty scene yields a blob with
id 2 where the first application produced id 1 — the resulting entity-graph
states differ in the entity ids. -/
theorem C3_counterexample :
    (((⟨[], ""⟩ : AddBlobCmd).redo emptyScene).1.diagram.blobs.map
      (fun b => b.id)) = [1] ∧
    ((((⟨[], ""⟩ : AddBlobCmd).redo
        (AddBlobCmd.undo ((⟨[], ""⟩ : AddBlobCmd).redo emptyScene).1
          ((⟨[], ""⟩ : AddBlobCmd).redo emptyScene).2)).1.diagram.blobs.map
      (fun b => b.id))) = [2] ∧
    (((⟨[], ""⟩ : AddBlobCmd).redo
        (AddBlobCmd.undo ((⟨[], ""⟩ : AddBlobCmd).redo emptyScene).1
          ((⟨[], ""⟩ : AddBlobCmd).redo emptyScene).2)).1.diagram
      ≠ ((⟨[], ""⟩ : AddBlobCmd).redo emptyScene).1.diagram) := by
  refine ⟨rfl, rfl, by decide⟩

/-- C3 (amended): re-applying from Reverted reproduces the first application
entity graph exactly for DeleteBlob (with duplicate-free ids and
association lists) and for Move and ChangeColor on swimlane and blob
items (the ChangeColor color-and-angle rewrites on a swimlane item are
idempotent; on blob items both commands leave the model alone); on an
outcome item both commands re-run `OutcomeItem.update_model` against a
possibly different item position, and only the center, swimlanes and
blobs are guaranteed to be reproduced; for AddBlob the re-application
reproduces the first result except that the created blob carries a fresh
id (the next counter value) — everything else, including the palette
color picked from the blob count, is identical. -/
theorem C3_reapply (normf atanDegf : ℚ → ℚ → ℚ) (cosf sinf : ℚ → ℚ)
    (twoPi : ℚ) (s : SceneState) (cmdA : AddBlobCmd) (cmdD : DeleteBlobCmd)
    (cmdM : MoveCmd) (cmdC : ChangeColorCmd) :
    ((∀ x ∈ s.diagram.blobs, x.id ≠ s.counter + 1) →
     (∀ o ∈ s.diagram.outcomes, (s.counter + 1) ∉ o.associated_blobs) →
     (∀ p ∈ s.outcomeItems, (s.counter + 1) ∉ p.2) →
      (cmdA.redo (AddBlobCmd.undo (cmdA.redo s).1 (cmdA.redo s).2)).1.diagram.blobs
        = (cmdA.redo s).1.diagram.blobs.map
            (fun b => if b.id = s.counter + 1 then { b with id := s.counter + 2 }
              else b) ∧
      (cmdA.redo (AddBlobCmd.undo (cmdA.redo s).1 (cmdA.redo s).2)).1.diagram.outcomes
        = (cmdA.redo s).1.diagram.outcomes ∧
      (cmdA.redo (AddBlobCmd.undo (cmdA.redo s).1 (cmdA.redo s).2)).1.diagram.swimlanes
        = (cmdA.redo s).1.diagram.swimlanes) ∧
    (s.diagram.blobs.any (fun x => x.id == cmdD.blob.id) = true →
     (s.diagram.blobs.map (fun x => x.id)).Nodup →
     (∀ o ∈ s.diagram.outcomes, o.associated_blobs.Nodup) →
      (cmdD.redo (cmdD.undo (cmdD.redo s))).diagram = (cmdD.redo s).diagram) ∧
    (match cmdM.item with
     | ItemRef.swimlaneItem _ _ _ =>
         (MoveCmd.redo normf atanDegf cosf sinf twoPi cmdM
           (MoveCmd.undo normf atanDegf cosf sinf twoPi cmdM
             (MoveCmd.redo normf atanDegf cosf sinf twoPi cmdM s))).diagram
           = (MoveCmd.redo normf atanDegf cosf sinf twoPi cmdM s).diagram
     | ItemRef.blobItem _ _ =>
         (MoveCmd.redo normf atanDegf cosf sinf twoPi cmdM
           (MoveCmd.undo normf atanDegf cosf sinf twoPi cmdM
             (MoveCmd.redo normf atanDegf cosf sinf twoPi cmdM s))).diagram
           = (MoveCmd.redo normf atanDegf cosf sinf twoPi cmdM s).diagram
     | ItemRef.outcomeItem _ _ _ =>
         (MoveCmd.redo normf atanDegf cosf sinf twoPi cmdM
           (MoveCmd.undo normf atanDegf cosf sinf twoPi cmdM
             (MoveCmd.redo normf atanDegf cosf sinf twoPi cmdM
               s))).diagram.center
           = (MoveCmd.redo normf atanDegf cosf sinf twoPi cmdM
               s).diagram.center ∧
         (MoveCmd.redo normf atanDegf cosf sinf twoPi cmdM
           (MoveCmd.undo normf atanDegf cosf sinf twoPi cmdM
             (MoveCmd.redo normf atanDegf cosf sinf twoPi cmdM
               s))).diagram.swimlanes
           = (MoveCmd.redo normf atanDegf cosf sinf twoPi cmdM
               s).diagram.swimlanes ∧
         (MoveCmd.redo normf atanDegf cosf sinf twoPi cmdM
           (MoveCmd.undo normf atanDegf cosf sinf twoPi cmdM
             (MoveCmd.redo normf atanDegf cosf sinf twoPi cmdM
               s))).diagram.blobs
           = (MoveCmd.redo normf atanDegf cosf sinf twoPi cmdM
               s).diagram.blobs) ∧
    (match cmdC.item with
     | ItemRef.swimlaneItem _ _ _ =>
         (ChangeColorCmd.redo normf atanDegf cosf sinf twoPi cmdC
           (ChangeColorCmd.undo normf atanDegf cosf sinf twoPi cmdC
             (ChangeColorCmd.redo normf atanDegf cosf sinf twoPi cmdC
               s))).diagram
           = (ChangeColorCmd.redo normf atanDegf cosf sinf twoPi cmdC
               s).diagram
     | ItemRef.blobItem _ _ =>
         ChangeColorCmd.redo normf atanDegf cosf sinf twoPi cmdC
           (ChangeColorCmd.undo normf atanDegf cosf sinf twoPi cmdC
             (ChangeColorCmd.redo normf atanDegf cosf sinf twoPi cmdC s))
           = ChangeColorCmd.redo normf atanDegf cosf sinf twoPi cmdC s
     | ItemRef.outcomeItem _ _ _ =>
         (ChangeColorCmd.redo normf atanDegf cosf sinf twoPi cmdC
           (ChangeColorCmd.undo normf atanDegf cosf sinf twoPi cmdC
             (ChangeColorCmd.redo normf atanDegf cosf sinf twoPi cmdC
               s))).diagram.center
           = (ChangeColorCmd.redo normf atanDegf cosf sinf twoPi cmdC
               s).diagram.center ∧
         (ChangeColorCmd.redo normf atanDegf cosf sinf twoPi cmdC
           (ChangeColorCmd.undo normf atanDegf cosf sinf twoPi cmdC
             (ChangeColorCmd.redo normf atanDegf cosf sinf twoPi cmdC
               s))).diagram.swimlanes
           = (ChangeColorCmd.redo normf atanDegf cosf sinf twoPi cmdC
               s).diagram.swimlanes ∧
         (ChangeColorCmd.redo normf atanDegf cosf sinf twoPi cmdC
           (ChangeColorCmd.undo normf atanDegf cosf sinf twoPi cmdC
             (ChangeColorCmd.redo normf atanDegf cosf sinf twoPi cmdC
               s))).diagram.blobs
           = (ChangeColorCmd.redo normf atanDegf cosf sinf twoPi cmdC
               s).diagram.blobs) := by
  refine ⟨fun h1 h2 h3 => ?_,
    fun hpres hndb hnda => delete_reapply_diagram cmdD s hpres hndb hnda,
    ?_, ?_⟩
  · obtain ⟨_, hsw, hout, hbl⟩ := addBlob_reapply cmdA s h1 h2 h3
    exact ⟨hbl, hout, hsw⟩
  · cases hi : cmdM.item with
    | swimlaneItem k sid la =>
        simp only [MoveCmd.redo, MoveCmd.undo, hi, itemSetPos_fst_swimlane]
    | outcomeItem k oid base =>
        simp only [MoveCmd.redo, MoveCmd.undo, hi]
        obtain ⟨hc1, hs1, hb1⟩ := itemSetPos_frame_outcome normf atanDegf cosf
          sinf twoPi s.diagram s.itemPositions k oid base cmdM.new_pos
        obtain ⟨hc2, hs2, hb2⟩ := itemSetPos_frame_outcome normf atanDegf cosf
          sinf twoPi
          (itemSetPos normf atanDegf cosf sinf twoPi s.diagram s.itemPositions
            (ItemRef.outcomeItem k oid base) cmdM.new_pos).1
          (itemSetPos normf atanDegf cosf sinf twoPi s.diagram s.itemPositions
            (ItemRef.outcomeItem k oid base) cmdM.new_pos).2
          k oid base cmdM.old_pos
        obtain ⟨hc3, hs3, hb3⟩ := itemSetPos_frame_outcome normf atanDegf cosf
          sinf twoPi
          (itemSetPos normf atanDegf cosf sinf twoPi
            (itemSetPos normf atanDegf cosf sinf twoPi s.diagram
              s.itemPositions (ItemRef.outcomeItem k oid base) cmdM.new_pos).1
            (itemSetPos normf atanDegf cosf sinf twoPi s.diagram
              s.itemPositions (ItemRef.outcomeItem k oid base) cmdM.new_pos).2
            (ItemRef.outcomeItem k oid base) cmdM.old_pos).1
          (itemSetPos normf atanDegf cosf sinf twoPi
            (itemSetPos normf atanDegf cosf sinf twoPi s.diagram
              s.itemPositions (ItemRef.outcomeItem k oid base) cmdM.new_pos).1
            (itemSetPos normf atanDegf cosf sinf twoPi s.diagram
              s.itemPositions (ItemRef.outcomeItem k oid base) cmdM.new_pos).2
            (ItemRef.outcomeItem k oid base) cmdM.old_pos).2
          k oid base cmdM.new_pos
        exact ⟨(hc3.trans hc2).trans (hc1.trans hc1.symm),
          (hs3.trans hs2).trans (hs1.trans hs1.symm),
          (hb3.trans hb2).trans (hb1.trans hb1.symm)⟩
    | blobItem k bid =>
        simp only [MoveCmd.redo, MoveCmd.undo, hi, itemSetPos_fst_blob]
  · cases hi : cmdC.item with
    | swimlaneItem k sid la =>
        simp only [ChangeColorCmd.redo, ChangeColorCmd.undo, hi, applyColor,
          applyUpdateModel]
        exact changeColor_swimlane_reapply s.diagram sid la cmdC.old_color
          cmdC.new_color
    | outcomeItem k oid base =>
        simp only [ChangeColorCmd.redo, ChangeColorCmd.undo, hi, applyColor,
          applyUpdateModel]
        obtain ⟨hc1, hs1, hb1⟩ := outcomeUpdateModel_frame normf atanDegf cosf
          sinf twoPi s.diagram oid base s.itemPositions k
        obtain ⟨hc2, hs2, hb2⟩ := outcomeUpdateModel_frame normf atanDegf cosf
          sinf twoPi
          (outcomeUpdateModel normf atanDegf cosf sinf twoPi s.diagram oid base
            s.itemPositions k).1
          oid base
          (outcomeUpdateModel normf atanDegf cosf sinf twoPi s.diagram oid base
            s.itemPositions k).2 k
        obtain ⟨hc3, hs3, hb3⟩ := outcomeUpdateModel_frame normf atanDegf cosf
          sinf twoPi
          (outcomeUpdateModel normf atanDegf cosf sinf twoPi
            (outcomeUpdateModel normf atanDegf cosf sinf twoPi s.diagram oid
              base s.itemPositions k).1
            oid base
            (outcomeUpdateModel normf atanDegf cosf sinf twoPi s.diagram oid
              base s.itemPositions k).2 k).1
          oid base
          (outcomeUpdateModel normf atanDegf cosf sinf twoPi
            (outcomeUpdateModel normf atanDegf cosf sinf twoPi s.diagram oid
              base s.itemPositions k).1
            oid base
            (outcomeUpdateModel normf atanDegf cosf sinf twoPi s.diagram oid
              base s.itemPositions k).2 k).2 k
        exact ⟨(hc3.trans hc2).trans (hc1.trans hc1.symm),
          (hs3.trans hs2).trans (hs1.trans hs1.symm),
          (hb3.trans hb2).trans (hb1.trans hb1.symm)⟩
    | blobItem k bid =>
        simp only [ChangeColorCmd.redo, ChangeColorCmd.undo, hi, applyColor,
          applyUpdateModel]

/-- C3 witness: the amended re-apply facts at the concrete fixture scene,
including Move and ChangeColor on a swimlane item. -/
theorem C3_reapply_witness :
    (((⟨[], "w"⟩ : AddBlobCmd).redo
        (AddBlobCmd.undo ((⟨[], "w"⟩ : AddBlobCmd).redo witScene).1
          ((⟨[], "w"⟩ : AddBlobCmd).redo witScene).2)).1.diagram.blobs
      = ((⟨[], "w"⟩ : AddBlobCmd).redo witScene).1.diagram.blobs.map
          (fun b => if b.id = 11 then { b with id := 12 } else b)) ∧
    (((DeleteBlobCmd.construct fixBlob5).redo
        ((DeleteBlobCmd.construct fixBlob5).undo
          ((DeleteBlobCmd.construct fixBlob5).redo witScene))).diagram
      = ((DeleteBlobCmd.construct fixBlob5).redo witScene).diagram) ∧
    ((MoveCmd.redo (fun _ _ => 0) (fun _ _ => 0) (fun _ => 1) (fun _ => 0) 360
        ⟨ItemRef.swimlaneItem 7 1 0, ⟨0, 0⟩, ⟨3, 4⟩⟩
        (MoveCmd.undo (fun _ _ => 0) (fun _ _ => 0) (fun _ => 1) (fun _ => 0)
          360 ⟨ItemRef.swimlaneItem 7 1 0, ⟨0, 0⟩, ⟨3, 4⟩⟩
          (MoveCmd.redo (fun _ _ => 0) (fun _ _ => 0) (fun _ => 1)
            (fun _ => 0) 360 ⟨ItemRef.swimlaneItem 7 1 0, ⟨0, 0⟩, ⟨3, 4⟩⟩
            witScene))).diagram
      = (MoveCmd.redo (fun _ _ => 0) (fun _ _ => 0) (fun _ => 1) (fun _ => 0)
          360 ⟨ItemRef.swimlaneItem 7 1 0, ⟨0, 0⟩, ⟨3, 4⟩⟩ witScene).diagram) ∧
    ((ChangeColorCmd.redo (fun _ _ => 0) (fun _ _ => 0) (fun _ => 1)
        (fun _ => 0) 360 ⟨ItemRef.swimlaneItem 7 1 0, segment1, segment3⟩
        (ChangeColorCmd.undo (fun _ _ => 0) (fun _ _ => 0) (fun _ => 1)
          (fun _ => 0) 360 ⟨ItemRef.swimlaneItem 7 1 0, segment1, segment3⟩
          (ChangeColorCmd.redo (fun _ _ => 0) (fun _ _ => 0) (fun _ => 1)
            (fun _ => 0) 360
            ⟨ItemRef.swimlaneItem 7 1 0, segment1, segment3⟩
            witScene))).diagram
      = (ChangeColorCmd.redo (fun _ _ => 0) (fun _ _ => 0) (fun _ => 1)
          (fun _ => 0) 360 ⟨ItemRef.swimlaneItem 7 1 0, segment1, segment3⟩
          witScene).diagram) := by
  have h := C3_reapply (fun _ _ => 0) (fun _ _ => 0) (fun _ => 1) (fun _ => 0)
    360 witScene ⟨[], "w"⟩ (DeleteBlobCmd.construct fixBlob5)
    ⟨ItemRef.swimlaneItem 7 1 0, ⟨0, 0⟩, ⟨3, 4⟩⟩
    ⟨ItemRef.swimlaneItem 7 1 0, segment1, segment3⟩
  exact ⟨(h.1 (by decide) (by decide) (by decide)).1,
    h.2.1 (by decide) (by decide) (by decide), h.2.2.1, h.2.2.2⟩

/-!
## C2 — cascading swimlane removal
-/

theorem wf_eraseP_outcomes (d : Diagram) (p : Outcome → Bool) (h : AssocWF d) :
    AssocWF { d with outcomes := d.outcomes.eraseP p } := by
  constructor
  · intro o ho
    exact h.1 o ((List.eraseP_sublist _).mem ho)
  · intro o ho bid hbid
    exact h.2 o ((List.eraseP_sublist _).mem ho) bid hbid

theorem dereg_mem_src (O : List Outcome) (r : Option ℕ) (bid : ℕ) :
    ∀ o' ∈ deregisterFrom O r bid, ∃ o ∈ O,
      ((¬ some o.id = r) ∧ o' = o) ∨
      (some o.id = r ∧
        o' = { o with associated_blobs := o.associated_blobs.erase bid }) := by
  cases r with
  | none =>
      intro o' h
      exact ⟨o', h, Or.inl ⟨by simp, rfl⟩⟩
  | some oid =>
      intro o' h
      simp only [deregisterFrom] at h
      rcases List.mem_map.mp h with ⟨o, ho, rfl⟩
      by_cases hid : o.id == oid
      · refine ⟨o, ho, Or.inr ⟨?_, by rw [if_pos hid]⟩⟩
        simpa using (by simpa using hid : o.id = oid)
      · refine ⟨o, ho, Or.inl ⟨?_, by rw [if_neg hid]⟩⟩
        intro hc
        exact hid (by simpa using (Option.some.injEq _ _ ▸ hc : o.id = oid) ▸ by simp)

theorem dereg_nodup_assoc (O : List Outcome) (r : Option ℕ) (bid : ℕ)
    (hnd : ∀ o ∈ O, o.associated_blobs.Nodup) :
    ∀ o' ∈ deregisterFrom O r bid, o'.associated_blobs.Nodup := by
  intro o' ho'
  obtain ⟨o, ho, hcase⟩ := dereg_mem_src O r bid o' ho'
  rcases hcase with ⟨_, h'⟩ | ⟨_, h'⟩ <;> subst h'
  · exact hnd o' ho
  · exact List.Nodup.erase bid (hnd o ho)

theorem dereg_assoc_sub (O : List Outcome) (r : Option ℕ) (bid : ℕ) :
    ∀ o' ∈ deregisterFrom O r bid, ∃ o ∈ O, o'.id = o.id ∧
      (∀ x ∈ o'.associated_blobs, x ∈ o.associated_blobs) := by
  intro o' ho'
  obtain ⟨o, ho, hcase⟩ := dereg_mem_src O r bid o' ho'
  rcases hcase with ⟨_, h'⟩ | ⟨_, h'⟩ <;> subst h'
  · exact ⟨o', ho, rfl, fun x hx => hx⟩
  · exact ⟨o, ho, rfl, fun x hx => List.mem_of_mem_erase hx⟩

theorem dereg_kills (O : List Outcome) (oid bid : ℕ)
    (hnd : ∀ o ∈ O, o.associated_blobs.Nodup) :
    ∀ o' ∈ deregisterFrom O (some oid) bid, o'.id = oid
      → bid ∉ o'.associated_blobs := by
  intro o' ho' hid
  obtain ⟨o, ho, hcase⟩ := dereg_mem_src O (some oid) bid o' ho'
  rcases hcase with ⟨hne, h'⟩ | ⟨_, h'⟩ <;> subst h'
  · exact absurd (congrArg some hid) hne
  · exact not_mem_erase_self (hnd o ho) bid

theorem dereg_keeps_kill (O : List Outcome) (r : Option ℕ) (oid bid : ℕ)
    (h : ∀ o ∈ O, o.id = oid → bid ∉ o.associated_blobs) :
    ∀ o' ∈ deregisterFrom O r bid, o'.id = oid → bid ∉ o'.associated_blobs := by
  intro o' ho' hid hm
  obtain ⟨o, ho, hcase⟩ := dereg_mem_src O r bid o' ho'
  rcases hcase with ⟨_, h'⟩ | ⟨_, h'⟩ <;> subst h'
  · exact h o' ho hid hm
  · exact h o ho hid (List.mem_of_mem_erase hm)

theorem dereg2_none_left (O : List Outcome) (r1 r2 : Option ℕ) (bid : ℕ)
    (hnd : ∀ o ∈ O, o.associated_blobs.Nodup) :
    ∀ o' ∈ deregisterFrom (deregisterFrom O r1 bid) r2 bid,
      (some o'.id = r1 ∨ some o'.id = r2) → bid ∉ o'.associated_blobs := by
  intro o' ho' hcase
  rcases hcase with hc | hc
  · rw [← hc] at ho'
    exact dereg_keeps_kill (deregisterFrom O (some o'.id) bid) r2 o'.id bid
      (dereg_kills O o'.id bid hnd) o' ho' rfl
  · rw [← hc] at ho'
    exact dereg_kills (deregisterFrom O r1 bid) o'.id bid
      (dereg_nodup_assoc O r1 bid hnd) o' ho' rfl

theorem remove_blob_mem_keep (d : Diagram) (b y : ScopeBlob)
    (hy : y ∈ d.blobs) (hne : y.id ≠ b.id) : y ∈ (d.remove_blob b).blobs := by
  rw [remove_blob_blobs]
  by_cases hg : d.blobs.any (fun x => x.id == b.id)
  · rw [if_pos hg]
    exact mem_eraseP_of_neg hy (by simpa using hne)
  · rw [if_neg hg]
    exact hy

theorem remove_blob_blobs_sublist (d : Diagram) (b : ScopeBlob) :
    (d.remove_blob b).blobs.Sublist d.blobs := by
  rw [remove_blob_blobs]
  by_cases hg : d.blobs.any (fun x => x.id == b.id)
  · rw [if_pos hg]
    exact List.eraseP_sublist _
  · rw [if_neg hg]

theorem remove_blob_wf (d : Diagram) (b : ScopeBlob)
    (hndb : (d.blobs.map (fun x => x.id)).Nodup)
    (hmem : b ∈ d.blobs)
    (hwf : AssocWF d) : AssocWF (d.remove_blob b) := by
  have hg : d.blobs.any (fun x => x.id == b.id) = true :=
    List.any_eq_true.mpr ⟨b, hmem, by simp⟩
  have houtc : (d.remove_blob b).outcomes
      = deregisterFrom (deregisterFrom d.outcomes b.start_outcome b.id)
        b.end_outcome b.id := by
    simp only [Diagram.remove_blob, hg, if_true]
  have hblobsr : (d.remove_blob b).blobs
      = d.blobs.eraseP (fun x => x.id == b.id) := by
    rw [remove_blob_blobs, if_pos hg]
  constructor
  · intro o' ho'
    rw [houtc] at ho'
    exact dereg_nodup_assoc _ b.end_outcome b.id
      (dereg_nodup_assoc _ b.start_outcome b.id hwf.1) o' ho'
  · intro o' ho' bid hbid
    rw [houtc] at ho'
    obtain ⟨o₁, ho₁, hid₁, hsub₁⟩ := dereg_assoc_sub _ b.end_outcome b.id o' ho'
    obtain ⟨o, ho, hid₂, hsub₂⟩ := dereg_assoc_sub _ b.start_outcome b.id o₁ ho₁
    have hbid_o : bid ∈ o.associated_blobs := hsub₂ bid (hsub₁ bid hbid)
    have hido : o'.id = o.id := hid₁.trans hid₂
    obtain ⟨b', hb', hbid', hep⟩ := hwf.2 o ho bid hbid_o
    by_cases hcase : bid = b.id
    · exfalso
      have hb'b : b' = b := nodup_map_inj hndb hb' hmem (by rw [hbid', hcase])
      have hep' : some o'.id = b.start_outcome ∨ some o'.id = b.end_outcome := by
        rcases hep with h1 | h1
        · left
          rw [hido, ← hb'b, h1]
        · right
          rw [hido, ← hb'b, h1]
      have hkill := dereg2_none_left d.outcomes b.start_outcome b.end_outcome
        b.id hwf.1 o' ho' hep'
      rw [← hcase] at hkill
      exact hkill hbid
    · refine ⟨b', ?_, hbid', by rw [hido]; exact hep⟩
      rw [hblobsr]
      exact mem_eraseP_of_neg hb' (by simp [hbid', hcase])

theorem rbFold (bs : List ScopeBlob) (d : Diagram)
    (hndb : (d.blobs.map (fun x => x.id)).Nodup)
    (hmem : ∀ x ∈ bs, x ∈ d.blobs)
    (hbsnd : (bs.map (fun x => x.id)).Nodup)
    (hwf : AssocWF d) :
    AssocWF (bs.foldl Diagram.remove_blob d) ∧
    ((bs.foldl Diagram.remove_blob d).blobs.map (fun x => x.id)).Nodup ∧
    (bs.foldl Diagram.remove_blob d).blobs.Sublist d.blobs := by
  induction bs generalizing d with
  | nil => exact ⟨hwf, hndb, List.Sublist.refl _⟩
  | cons x xs ih =>
      rw [List.map_cons] at hbsnd
      rcases List.nodup_cons.mp hbsnd with ⟨hxnot, hxsnd⟩
      have hsub₁ : (d.remove_blob x).blobs.Sublist d.blobs :=
        remove_blob_blobs_sublist d x
      have hndb₁ : ((d.remove_blob x).blobs.map (fun y => y.id)).Nodup :=
        List.Nodup.sublist (List.Sublist.map _ hsub₁) hndb
      have hwf₁ : AssocWF (d.remove_blob x) :=
        remove_blob_wf d x hndb (hmem x (List.mem_cons_self x xs)) hwf
      have hmem₁ : ∀ y ∈ xs, y ∈ (d.remove_blob x).blobs := by
        intro y hy
        refine remove_blob_mem_keep d x y (hmem y (List.mem_cons_of_mem x hy)) ?_
        intro hid
        exact hxnot (hid ▸ List.mem_map_of_mem (fun z => z.id) hy)
      have hIH := ih (d.remove_blob x) hndb₁ hmem₁ hxsnd hwf₁
      rw [List.foldl_cons]
      exact ⟨hIH.1, hIH.2.1, List.Sublist.trans hIH.2.2 hsub₁⟩

theorem foldl_remove_blob_blobs (bs : List ScopeBlob) (d : Diagram) :
    (bs.foldl Diagram.remove_blob d).blobs
      = bs.foldl (fun bl x => if bl.any (fun y => y.id == x.id)
          then bl.eraseP (fun y => y.id == x.id) else bl) d.blobs := by
  induction bs generalizing d with
  | nil => rfl
  | cons b bs ih =>
      rw [List.foldl_cons, List.foldl_cons, ih, remove_blob_blobs]

theorem fold_erase_cons (ts : List ScopeBlob) (x : ScopeBlob)
    (bl : List ScopeBlob) (h : ∀ t ∈ ts, t.id ≠ x.id) :
    ts.foldl (fun acc t => if acc.any (fun y => y.id == t.id)
        then acc.eraseP (fun y => y.id == t.id) else acc) (x :: bl)
      = x :: ts.foldl (fun acc t => if acc.any (fun y => y.id == t.id)
          then acc.eraseP (fun y => y.id == t.id) else acc) bl := by
  induction ts generalizing bl with
  | nil => rfl
  | cons t ts ih =>
      have hne : (x.id == t.id) = false := by
        simp only [beq_eq_false_iff_ne, ne_eq]
        intro hx
        exact h t (List.mem_cons_self t ts) hx.symm
      have hstep : (if (x :: bl).any (fun y => y.id == t.id)
            then (x :: bl).eraseP (fun y => y.id == t.id) else (x :: bl))
          = x :: (if bl.any (fun y => y.id == t.id)
            then bl.eraseP (fun y => y.id == t.id) else bl) := by
        by_cases hb : bl.any (fun y => y.id == t.id)
        · rw [if_pos hb, if_pos (by simp [List.any_cons, hne, hb]),
            List.eraseP_cons_of_neg (by simp [hne])]
        · rw [if_neg hb, if_neg ?_]
          simp only [List.any_cons, hne, Bool.false_or]
          exact hb
      rw [List.foldl_cons, List.foldl_cons, hstep,
        ih _ (fun t' ht' => h t' (List.mem_cons_of_mem t ht'))]

theorem pure_fold_filter (l : List ScopeBlob) (sel : ScopeBlob → Bool)
    (hnd : (l.map (fun x => x.id)).Nodup) :
    (l.filter sel).foldl (fun bl x => if bl.any (fun y => y.id == x.id)
        then bl.eraseP (fun y => y.id == x.id) else bl) l
      = l.filter (fun x => !(sel x)) := by
  induction l with
  | nil => rfl
  | cons x xs ih =>
      rw [List.map_cons] at hnd
      rcases List.nodup_cons.mp hnd with ⟨hxnot, hxsnd⟩
      have hxs_ne : ∀ t ∈ xs.filter sel, t.id ≠ x.id := by
        intro t ht hid
        exact hxnot (hid ▸ List.mem_map_of_mem (fun z => z.id)
          (List.mem_of_mem_filter ht))
      by_cases hsel : sel x
      · rw [List.filter_cons_of_pos hsel, List.foldl_cons]
        have hstep : (if (x :: xs).any (fun y => y.id == x.id)
              then (x :: xs).eraseP (fun y => y.id == x.id) else (x :: xs))
            = xs := by
          rw [if_pos (by simp [List.any_cons]), List.eraseP_cons_of_pos (by simp)]
        rw [hstep, ih hxsnd,
          List.filter_cons_of_neg (by simp [hsel])]
      · rw [List.filter_cons_of_neg (by simpa using hsel),
          fold_erase_cons _ _ _ hxs_ne, ih hxsnd,
          List.filter_cons_of_pos (by simp [hsel])]

theorem remove_outcome_blobs (d : Diagram) (oid : ℕ)
    (hpres : d.outcomes.any (fun o => o.id == oid) = true)
    (hndb : (d.blobs.map (fun x => x.id)).Nodup) :
    (d.remove_outcome oid).blobs
      = d.blobs.filter (fun b => !(blobTouches oid b)) := by
  have hfold : (d.remove_outcome oid).blobs
      = ((d.blobs.filter (blobTouches oid)).foldl Diagram.remove_blob d).blobs := by
    simp only [Diagram.remove_outcome, hpres, if_true]
  rw [hfold, foldl_remove_blob_blobs, pure_fold_filter _ _ hndb]

theorem remove_outcome_wf (d : Diagram) (oid : ℕ)
    (hndb : (d.blobs.map (fun x => x.id)).Nodup)
    (hwf : AssocWF d) : AssocWF (d.remove_outcome oid) := by
  by_cases hpres : d.outcomes.any (fun o => o.id == oid) = true
  · have hfold := rbFold (d.blobs.filter (blobTouches oid)) d hndb
      (fun x hx => List.mem_of_mem_filter hx)
      (List.Nodup.sublist (List.Sublist.map _ (List.filter_sublist _)) hndb) hwf
    have heq : d.remove_outcome oid
        = { (d.blobs.filter (blobTouches oid)).foldl Diagram.remove_blob d with
            outcomes := ((d.blobs.filter (blobTouches oid)).foldl
              Diagram.remove_blob d).outcomes.eraseP (fun o => o.id == oid) } := by
      simp only [Diagram.remove_outcome, hpres, if_true]
    rw [heq]
    exact wf_eraseP_outcomes _ _ hfold.1
  · rw [remove_outcome_of_absent d oid (by simpa using hpres)]
    exact hwf

theorem remove_outcome_outcome_ids (d : Diagram) (oid : ℕ) :
    (d.remove_outcome oid).outcomes.map (fun o => o.id)
      = if d.outcomes.any (fun o => o.id == oid)
        then (d.outcomes.map (fun o => o.id)).eraseP (fun x => x == oid)
        else d.outcomes.map (fun o => o.id) := by
  by_cases hg : d.outcomes.any (fun o => o.id == oid) = true
  · rw [if_pos hg]
    have hp := remove_outcome_outcome_pairs d oid
    rw [if_pos hg] at hp
    have h1 : (d.remove_outcome oid).outcomes.map (fun o => o.id)
        = ((d.remove_outcome oid).outcomes.map
            (fun o => (o.id, o.swimlane_id))).map (fun p => p.1) := by
      rw [List.map_map]
      rfl
    rw [h1, hp, map_eraseP_comm (fun p : ℕ × ℕ => p.1) (fun p => p.1 == oid)
      (fun x => x == oid) _ (fun x => rfl), List.map_map]
    rfl
  · rw [if_neg hg, remove_outcome_of_absent d oid (by simpa using hg)]

theorem remove_outcome_keep (d : Diagram) (oid x : ℕ) (hx : x ≠ oid)
    (hpres2 : d.outcomes.any (fun o => o.id == x) = true) :
    (d.remove_outcome oid).outcomes.any (fun o => o.id == x) = true := by
  have hxm : x ∈ d.outcomes.map (fun o => o.id) := by
    obtain ⟨o, ho, hox⟩ := List.any_eq_true.mp hpres2
    exact (by simpa using hox : o.id = x) ▸ List.mem_map_of_mem _ ho
  have hxm2 : x ∈ (d.remove_outcome oid).outcomes.map (fun o => o.id) := by
    rw [remove_outcome_outcome_ids]
    by_cases hg : d.outcomes.any (fun o => o.id == oid) = true
    · rw [if_pos hg]
      exact mem_eraseP_of_neg hxm (by simpa using hx)
    · rw [if_neg hg]
      exact hxm
  obtain ⟨o', ho', hid⟩ := List.mem_map.mp hxm2
  exact List.any_eq_true.mpr ⟨o', ho', by simp [hid]⟩

theorem remove_outcome_not_present (d : Diagram) (oid : ℕ)
    (hnd : (d.outcomes.map (fun o => o.id)).Nodup) :
    ∀ o' ∈ (d.remove_outcome oid).outcomes, o'.id ≠ oid := by
  have h := remove_outcome_absent_after d oid hnd
  intro o' ho' he
  have htrue : (d.remove_outcome oid).outcomes.any (fun o => o.id == oid)
      = true := List.any_eq_true.mpr ⟨o', ho', by simp [he]⟩
  rw [h] at htrue
  exact Bool.false_ne_true htrue

theorem roFold (oids : List ℕ) (d : Diagram)
    (hoids : oids.Nodup)
    (hpres : ∀ oid ∈ oids, d.outcomes.any (fun o => o.id == oid) = true)
    (hndo : (d.outcomes.map (fun o => o.id)).Nodup)
    (hndb : (d.blobs.map (fun x => x.id)).Nodup)
    (hwf : AssocWF d) :
    (oids.foldl Diagram.remove_outcome d).swimlanes = d.swimlanes ∧
    (oids.foldl Diagram.remove_outcome d).center = d.center ∧
    ((oids.foldl Diagram.remove_outcome d).outcomes.map
        (fun o => (o.id, o.swimlane_id))).Sublist
      (d.outcomes.map (fun o => (o.id, o.swimlane_id))) ∧
    (∀ o ∈ (oids.foldl Diagram.remove_outcome d).outcomes, o.id ∉ oids) ∧
    (∀ b ∈ (oids.foldl Diagram.remove_outcome d).blobs, ∀ oid ∈ oids,
      blobTouches oid b = false) ∧
    (oids.foldl Diagram.remove_outcome d).blobs.Sublist d.blobs ∧
    AssocWF (oids.foldl Diagram.remove_outcome d) ∧
    ((oids.foldl Diagram.remove_outcome d).outcomes.map
      (fun o => o.id)).Nodup ∧
    ((oids.foldl Diagram.remove_outcome d).blobs.map (fun x => x.id)).Nodup := by
  induction oids generalizing d with
  | nil =>
      exact ⟨rfl, rfl, List.Sublist.refl _, fun o _ => List.not_mem_nil _,
        fun b _ oid hoid => absurd hoid (List.not_mem_nil oid),
        List.Sublist.refl _, hwf, hndo, hndb⟩
  | cons oid oids ih =>
      rcases List.nodup_cons.mp hoids with ⟨hoid_not, hoids2⟩
      have hg : d.outcomes.any (fun o => o.id == oid) = true :=
        hpres oid (List.mem_cons_self oid oids)
      have hsw₁ := remove_outcome_swimlanes d oid
      have hc₁ := remove_outcome_center d oid
      have hpairs₁ : (d.remove_outcome oid).outcomes.map
            (fun o => (o.id, o.swimlane_id))
          = (d.outcomes.map (fun o => (o.id, o.swimlane_id))).eraseP
            (fun p => p.1 == oid) := by
        rw [remove_outcome_outcome_pairs, if_pos hg]
      have hpairs_sub : ((d.remove_outcome oid).outcomes.map
            (fun o => (o.id, o.swimlane_id))).Sublist
          (d.outcomes.map (fun o => (o.id, o.swimlane_id))) := by
        rw [hpairs₁]
        exact List.eraseP_sublist _
      have hndo₁ : ((d.remove_outcome oid).outcomes.map
          (fun o => o.id)).Nodup := by
        rw [remove_outcome_outcome_ids, if_pos hg]
        exact List.Nodup.sublist (List.eraseP_sublist _) hndo
      have hblobs₁ : (d.remove_outcome oid).blobs
          = d.blobs.filter (fun b => !(blobTouches oid b)) :=
        remove_outcome_blobs d oid hg hndb
      have hbsub₁ : (d.remove_outcome oid).blobs.Sublist d.blobs := by
        rw [hblobs₁]
        exact List.filter_sublist _
      have hndb₁ : ((d.remove_outcome oid).blobs.map
          (fun x => x.id)).Nodup :=
        List.Nodup.sublist (List.Sublist.map _ hbsub₁) hndb
      have hwf₁ : AssocWF (d.remove_outcome oid) :=
        remove_outcome_wf d oid hndb hwf
      have hpres₁ : ∀ x ∈ oids,
          (d.remove_outcome oid).outcomes.any (fun o => o.id == x) = true := by
        intro x hx
        exact remove_outcome_keep d oid x (fun he => hoid_not (he ▸ hx))
          (hpres x (List.mem_cons_of_mem oid hx))
      obtain ⟨ihsw, ihc, ihpairs, ihnot, ihtouch, ihbsub, ihwf, ihndo, ihndb⟩ :=
        ih (d.remove_outcome oid) hoids2 hpres₁ hndo₁ hndb₁ hwf₁
      rw [List.foldl_cons]
      refine ⟨ihsw.trans hsw₁, ihc.trans hc₁, ihpairs.trans hpairs_sub,
        ?_, ?_, ihbsub.trans hbsub₁, ihwf, ihndo, ihndb⟩
      · intro o ho hmem
        rcases List.mem_cons.mp hmem with he | hm
        · have hp : (o.id, o.swimlane_id)
              ∈ (oids.foldl Diagram.remove_outcome (d.remove_outcome oid)).outcomes.map
                (fun o => (o.id, o.swimlane_id)) := List.mem_map_of_mem _ ho
          obtain ⟨o₁, ho₁, heq⟩ := List.mem_map.mp (ihpairs.mem hp)
          exact remove_outcome_not_present d oid hndo o₁ ho₁
            ((congrArg Prod.fst heq).trans he)
        · exact ihnot o ho hm
      · intro b hb oid2 hmem
        rcases List.mem_cons.mp hmem with he | hm
        · subst he
          have hbmem : b ∈ (d.remove_outcome oid2).blobs := ihbsub.mem hb
          rw [hblobs₁] at hbmem
          simpa using (List.mem_filter.mp hbmem).2
        · exact ihtouch b hb oid2 hm

/-- C2 counterexample: in `c2Diagram` the blob references swimlane 1 through
its `start_swimlane` endpoint but touches none of its outcomes (there are
none), so `remove_swimlane 1` deletes the swimlane yet keeps the blob intact,
leaving its `start_swimlane` endpoint dangling on the removed swimlane. -/
theorem C2_counterexample :
    (c2Diagram.remove_swimlane 1).swimlanes = [] ∧
    (c2Diagram.remove_swimlane 1).blobs = [c2Blob] ∧
    c2Blob.start_swimlane = some 1 := by decide

/-- C2 (amended): removing a present swimlane from a diagram with
duplicate-free ids and well-formed association lists removes the swimlane,
every outcome on it, and every blob having one of those outcomes as a
start or end endpoint, and every surviving association-list entry still
resolves to a surviving blob holding the matching outcome endpoint; blob
`start_swimlane`/`end_swimlane` references, however, are never cleared
(see the counterexample). -/
theorem C2_cascade (d : Diagram) (sid : ℕ)
    (hpres : d.swimlanes.any (fun s => s.id == sid) = true)
    (hndsw : (d.swimlanes.map (fun s => s.id)).Nodup)
    (hndo : (d.outcomes.map (fun o => o.id)).Nodup)
    (hndb : (d.blobs.map (fun x => x.id)).Nodup)
    (hwf : AssocWF d) :
    (∀ s ∈ (d.remove_swimlane sid).swimlanes, s.id ≠ sid) ∧
    (∀ o ∈ (d.remove_swimlane sid).outcomes, o.swimlane_id ≠ sid) ∧
    (∀ b ∈ (d.remove_swimlane sid).blobs, ∀ o ∈ d.outcomes,
      o.swimlane_id = sid → blobTouches o.id b = false) ∧
    (∀ o ∈ (d.remove_swimlane sid).outcomes, ∀ bid ∈ o.associated_blobs,
      ∃ b ∈ (d.remove_swimlane sid).blobs, b.id = bid ∧
        (b.start_outcome = some o.id ∨ b.end_outcome = some o.id)) := by
  have hsw_eq : (d.remove_swimlane sid).swimlanes
      = d.swimlanes.eraseP (fun s => s.id == sid) := by
    rw [remove_swimlane_swimlanes, if_pos hpres]
  have hco : (d.remove_swimlane sid).outcomes
      = (((d.outcomes.filter (fun o => o.swimlane_id == sid)).map
          (fun o => o.id)).foldl Diagram.remove_outcome d).outcomes := by
    simp only [Diagram.remove_swimlane, hpres, if_true]
  have hcb : (d.remove_swimlane sid).blobs
      = (((d.outcomes.filter (fun o => o.swimlane_id == sid)).map
          (fun o => o.id)).foldl Diagram.remove_outcome d).blobs := by
    simp only [Diagram.remove_swimlane, hpres, if_true]
  have hRnodup : ((d.outcomes.filter (fun o => o.swimlane_id == sid)).map
      (fun o => o.id)).Nodup :=
    List.Nodup.sublist (List.Sublist.map _ (List.filter_sublist _)) hndo
  have hRpres : ∀ oid ∈ (d.outcomes.filter
        (fun o => o.swimlane_id == sid)).map (fun o => o.id),
      d.outcomes.any (fun o => o.id == oid) = true := by
    intro oid hoid
    obtain ⟨o, ho, hid⟩ := List.mem_map.mp hoid
    exact List.any_eq_true.mpr ⟨o, List.mem_of_mem_filter ho, by simp [hid]⟩
  obtain ⟨hsw, hc, hpairs, hnot, htouch, hbsub, hwfR, hndoR, hndbR⟩ :=
    roFold ((d.outcomes.filter (fun o => o.swimlane_id == sid)).map
      (fun o => o.id)) d hRnodup hRpres hndo hndb hwf
  refine ⟨?_, ?_, ?_, ?_⟩
  · intro s hs
    rw [hsw_eq] at hs
    exact eraseP_no_match (fun s : Swimlane => s.id) sid hndsw s hs
  · intro o ho hosid
    rw [hco] at ho
    have hpmem := List.mem_map_of_mem
      (fun o : Outcome => (o.id, o.swimlane_id)) ho
    obtain ⟨o₀, ho₀, heq⟩ := List.mem_map.mp (hpairs.mem hpmem)
    have h1 : o₀.id = o.id := congrArg Prod.fst heq
    have h2 : o₀.swimlane_id = o.swimlane_id := congrArg Prod.snd heq
    have hoR : o.id ∈ (d.outcomes.filter
        (fun o => o.swimlane_id == sid)).map (fun o => o.id) := by
      rw [← h1]
      exact List.mem_map_of_mem _
        (List.mem_filter.mpr ⟨ho₀, by simp [h2, hosid]⟩)
    exact hnot o ho hoR
  · intro b hb o ho hosid
    rw [hcb] at hb
    exact htouch b hb o.id
      (List.mem_map_of_mem _ (List.mem_filter.mpr ⟨ho, by simp [hosid]⟩))
  · intro o ho bid hbid
    rw [hco] at ho
    obtain ⟨b, hbmem, hbid2, hep⟩ := hwfR.2 o ho bid hbid
    refine ⟨b, ?_, hbid2, hep⟩
    rw [hcb]
    exact hbmem

/-- Witness for C2: removing swimlane 1 from the two-swimlane fixture
discharges every hypothesis concretely. -/
theorem C2_cascade_witness :
    fixDiagram.swimlanes.any (fun s => s.id == 1) = true ∧
    ((∀ s ∈ (fixDiagram.remove_swimlane 1).swimlanes, s.id ≠ 1) ∧
     (∀ o ∈ (fixDiagram.remove_swimlane 1).outcomes, o.swimlane_id ≠ 1) ∧
     (∀ b ∈ (fixDiagram.remove_swimlane 1).blobs, ∀ o ∈ fixDiagram.outcomes,
       o.swimlane_id = 1 → blobTouches o.id b = false) ∧
     (∀ o ∈ (fixDiagram.remove_swimlane 1).outcomes,
       ∀ bid ∈ o.associated_blobs,
       ∃ b ∈ (fixDiagram.remove_swimlane 1).blobs, b.id = bid ∧
         (b.start_outcome = some o.id ∨ b.end_outcome = some o.id))) :=
  ⟨by decide, C2_cascade fixDiagram 1 (by decide) (by decide) (by decide)
    (by decide) ⟨by decide, by decide⟩⟩

end RadialDiagram

